import Mathlib

/-!
aacmd: the command interpreter of the Alnitak flat-panel emulator

A shallow embedding of `src/aacmd/aacmd.cpp` (`usage` and `main`) and the
properties of its command dispatch.

* The process state is passed explicitly: the text written to standard output so
  far, the `delay` variable, the state of the `dimmer` object and the trace of the
  device calls made so far.
* `usage()` ends the process with `exit(1)`; the loop body therefore returns either
  the next process state or the state in which the process was ended.
* C strings are `String`s read through their character list; `argv[i][0]` of an
  empty argument is the terminating NUL.
* `unsigned int` is a `Nat` below `2 ^ 32`, `unsigned char` a `Nat` below `256`.
-/

namespace Aacmd

/-! ## The device collaborator -/

/-- A call made on the `dimmer` object. -/
inductive DevOp where
  | connect
  | setLightOn (b : Bool)
  | setBrightness (val : Nat)
  | getBrightness
  deriving DecidableEq, Repr

/-- Modelled from the spec: the class `AlnitakEmu` is declared in `alnitak_emu.h`,
which is not part of the sources at hand. Its interface is the one of the spec,
section 6: `connect() -> success|failure`, `setLightOn(bool) -> success|failure`,
`setBrightness(value: 1..255) -> success|failure`, `getBrightness() -> value: 0..255`.
The device is an arbitrary state machine over a state type `σ`: every call returns its
answer and the next state, so that answers may depend on everything that happened
before. -/
structure AlnitakEmu (σ : Type) where
  Connect : σ → Bool × σ
  setLightOn : Bool → σ → Bool × σ
  setBrightness : Nat → σ → Bool × σ
  getBrightness : σ → Fin 256 × σ

/-! ## C library functions used by `main` -/

/-- `toupper` in the "C" locale: the letters `a`..`z` are mapped to `A`..`Z`, every
other character is returned unchanged. -/
def toupper (c : Char) : Char :=
  if 97 ≤ c.toNat ∧ c.toNat ≤ 122 then Char.ofNat (c.toNat - 32) else c

/-- `isspace` in the "C" locale: the space and the control characters 9 to 13. -/
def isspace (c : Char) : Bool :=
  c.toNat = 32 || (9 ≤ c.toNat && c.toNat ≤ 13)

/-- `isdigit`: the decimal digits `0`..`9`. -/
def isdigit (c : Char) : Bool :=
  48 ≤ c.toNat && c.toNat ≤ 57

/-- The number denoted by a run of decimal digits, accumulated left to right. -/
def digitsValue (ds : List Char) : Nat :=
  ds.foldl (fun acc c => 10 * acc + (c.toNat - 48)) 0

/-- Number of values of an `unsigned int`. -/
def UINT_RANGE : Nat := 2 ^ 32

/-- Number of values of the 64-bit accumulator in which the C runtime collects the
digits of a number before it stores it. -/
def ACC_RANGE : Nat := 2 ^ 64

/-- The content of the `unsigned int` in which `%u` has stored a number with the sign
`neg` and the digits of value `n`. The runtime collects the digits in a 64-bit
accumulator: a value that fits is negated after a minus sign and then cut to its low
32 bits; a value of `2 ^ 64` or more saturates the accumulator, with either sign, and
the `unsigned int` receives `4294967295`. (This is what the Microsoft universal C
runtime and the GNU C library do; the C standard leaves a number that does not fit
undefined.) -/
def storedUnsigned (neg : Bool) (n : Nat) : Nat :=
  if ACC_RANGE ≤ n then UINT_RANGE - 1
  else if neg then (UINT_RANGE - n % UINT_RANGE) % UINT_RANGE
  else n % UINT_RANGE

/-- `sscanf_s(s, "%u", &val)`: returns the pair of the function's return value `n`
and the content of `val` afterwards.

The `%u` conversion skips leading white space, accepts one optional sign, and then
consumes the longest run of decimal digits; whatever follows the digits is left
unread. Without a digit nothing is stored and the return value is `0` (or `EOF`, that
is `-1`, when the input ends before anything could be matched). With digits the
return value is `1` and the number is stored as `storedUnsigned` says. -/
def sscanf_u (s : List Char) (val : Nat) : Int × Nat :=
  let s1 := s.dropWhile isspace
  let neg : Bool := s1.head? = some '-'
  let s2 := if s1.head? = some '-' ∨ s1.head? = some '+' then s1.drop 1 else s1
  let ds := s2.takeWhile isdigit
  if ds.isEmpty then
    (if s1.isEmpty then (-1, val) else (0, val))
  else
    (1, storedUnsigned neg (digitsValue ds))

/-- The text `printf` writes for `%d` when handed a 32-bit value: the decimal
digits of the value read as a signed `int`. -/
def printf_d (v : Nat) : String :=
  if v % UINT_RANGE < 2 ^ 31 then Nat.repr (v % UINT_RANGE)
  else "-" ++ Nat.repr (UINT_RANGE - v % UINT_RANGE)

/-! ## The program -/

/-- The text `usage()` writes to standard error before it calls `exit(1)`. -/
def usageText : String :=
  "Usage: aacmd.exe OPTIONS\n" ++
  "\n" ++
  "aacmd.exe <COM port number> L Bnnn S      - turns the panel on to brightness nnn 1-255\n" ++
  "aacmd.exe <COM port number> D S           - turns the panel off\n" ++
  "aacmd.exe <COM port number> V             - version: x.x.x\n" ++
  "aacmd.exe <COM port number> O S           - opens the FlipFlat\n" ++
  "aacmd.exe <COM port number> C S           - closes the FlipFlat\n"

/-- The text written to standard error when `dimmer.Connect()` fails. -/
def connectText : String := "could not connect to usb dimmer!\n"

/-- State of the running process inside `main`: the text written to standard output
so far, the variable `delay`, the state of the object `dimmer`, and the device calls
made so far (oldest first). -/
structure Proc (σ : Type) where
  out : String
  delay : Nat
  dimmer : σ
  ops : List DevOp
  deriving DecidableEq

/-- Outcome of one pass through the loop body: the loop goes on with a new state, or
`usage()` was called and the process ended with `exit(1)` in the given state. -/
inductive Flow (σ : Type) where
  | next (p : Proc σ)
  | usage (p : Proc σ)
  deriving DecidableEq

/-- `argv[i][0]`: the first character of an argument, the terminating NUL when the
argument is empty. -/
def firstChar (arg : String) : Char :=
  arg.data.headD (Char.ofNat 0)

/-- The body of the `for` loop of `main` for the argument `arg = argv[i]`: the
`switch` on `toupper(argv[i][0])`. -/
def body {σ : Type} (d : AlnitakEmu σ) (arg : String) (p : Proc σ) : Flow σ :=
  let cmd := toupper (firstChar arg)
  if cmd = 'L' then
    let r := d.setLightOn true p.dimmer
    Flow.next { out := if r.1 then p.out ++ "LIGHT ON " else p.out,
                delay := p.delay, dimmer := r.2,
                ops := p.ops ++ [DevOp.setLightOn true] }
  else if cmd = 'B' then
    let sc := sscanf_u (arg.data.drop 1) 0
    let n := sc.1
    let val := sc.2
    if n ≠ 1 ∨ val < 1 ∨ val > 255 then
      Flow.usage p
    else
      let r := d.setBrightness (val % 256) p.dimmer
      Flow.next { out := if r.1 then p.out ++ ("BRIGHT " ++ printf_d val ++ " ") else p.out,
                  delay := p.delay, dimmer := r.2,
                  ops := p.ops ++ [DevOp.setBrightness (val % 256)] }
  else if cmd = 'D' then
    let r := d.setLightOn false p.dimmer
    Flow.next { out := if r.1 then p.out ++ "LIGHT OFF " else p.out,
                delay := p.delay, dimmer := r.2,
                ops := p.ops ++ [DevOp.setLightOn false] }
  else if cmd = 'V' then
    Flow.next { p with out := p.out ++ "AACMD version: 3.14.16 " }
  else if cmd = 'O' then
    Flow.next { p with out := p.out ++ "OPEN " }
  else if cmd = 'C' then
    Flow.next { p with out := p.out ++ "CLOSE " }
  else if cmd = 'P' then
    Flow.next { p with out := p.out ++ "PRODUCTID " }
  else if cmd = 'F' then
    Flow.next { p with out := p.out ++ "FIRMWARE " }
  else if cmd = 'G' then
    let r := d.getBrightness p.dimmer
    Flow.next { out := p.out ++ ("BRIGHT " ++ printf_d r.1.val ++ " "),
                delay := p.delay, dimmer := r.2,
                ops := p.ops ++ [DevOp.getBrightness] }
  else if cmd = 'S' then
    Flow.next { p with delay := 0 }
  else
    Flow.usage p

/-- The `for` loop of `main` over the arguments `argv[2]`, ..., `argv[argc-1]`. -/
def loop {σ : Type} (d : AlnitakEmu σ) : List String → Proc σ → Flow σ
  | [], p => Flow.next p
  | arg :: rest, p =>
    match body d arg p with
    | Flow.next q => loop d rest q
    | Flow.usage q => Flow.usage q

/-- What a run of the process leaves behind: the text on standard output and on
standard error, the exit status, the argument of `Sleep` when it was reached, the
device calls made (oldest first) and the final state of the device. -/
structure Result (σ : Type) where
  stdout : String
  stderr : String
  status : Nat
  slept : Option Nat
  ops : List DevOp
  dimmer : σ
  deriving DecidableEq

/-- The function `main`. `argv` holds the program name, the port and the command
tokens, `argc` is its length, and `s0` is the state of the device when the process
starts. -/
def main {σ : Type} (d : AlnitakEmu σ) (s0 : σ) (argv : List String) : Result σ :=
  if argv.length < 3 then
    { stdout := "", stderr := usageText, status := 1, slept := none, ops := [], dimmer := s0 }
  else
    let c := d.Connect s0
    if !c.1 then
      { stdout := "", stderr := connectText, status := 1, slept := none,
        ops := [DevOp.connect], dimmer := c.2 }
    else
      match loop d (argv.drop 2)
          { out := "", delay := 3000, dimmer := c.2, ops := [DevOp.connect] } with
      | Flow.usage q =>
        { stdout := q.out, stderr := usageText, status := 1, slept := none,
          ops := q.ops, dimmer := q.dimmer }
      | Flow.next q =>
        { stdout := q.out ++ "\n", stderr := "", status := 0, slept := some q.delay,
          ops := q.ops, dimmer := q.dimmer }

/-! ## The dispatch table of the specification -/

/-- The directive of a token: its leading character, read case-insensitively. -/
def directive (tok : String) : Char :=
  toupper (firstChar tok)

/-- The brightness argument of a `B` token: the number that `%u` reads from the
characters after the leading letter, when there is one and it lies in `[1,255]`. -/
def brightness (tok : String) : Option Nat :=
  let sc := sscanf_u (tok.data.drop 1) 0
  if sc.1 = 1 ∧ 1 ≤ sc.2 ∧ sc.2 ≤ 255 then some sc.2 else none

/-- The directives without an argument. -/
def plainDirectives : List Char :=
  ['L', 'D', 'V', 'O', 'C', 'P', 'F', 'G', 'S']

/-- A token is valid when its directive is one of `L D V O C P F G S`, or is `B` with a
brightness argument in `[1,255]`. -/
def validToken (tok : String) : Bool :=
  if directive tok = 'B' then (brightness tok).isSome
  else decide (directive tok ∈ plainDirectives)

/-- The device operation the dispatch table assigns to a token: `L` turns the light
on, `D` turns it off, `B` sets the brightness, `G` reads it; the other directives make
no device call. -/
def tableOp (tok : String) : Option DevOp :=
  if directive tok = 'L' then some (DevOp.setLightOn true)
  else if directive tok = 'D' then some (DevOp.setLightOn false)
  else if directive tok = 'B' then (brightness tok).map DevOp.setBrightness
  else if directive tok = 'G' then some DevOp.getBrightness
  else none

/-- One row of the dispatch table: the output fragment of a token and the state of the
device afterwards, given the state `s` of the device before. The fragment of `L`, `D`
and `B` is empty when the device operation reports failure. -/
def tableStep {σ : Type} (d : AlnitakEmu σ) (tok : String) (s : σ) : String × σ :=
  if directive tok = 'L' then
    ((if (d.setLightOn true s).1 then "LIGHT ON " else ""), (d.setLightOn true s).2)
  else if directive tok = 'D' then
    ((if (d.setLightOn false s).1 then "LIGHT OFF " else ""), (d.setLightOn false s).2)
  else if directive tok = 'B' then
    match brightness tok with
    | some v =>
      ((if (d.setBrightness v s).1 then "BRIGHT " ++ Nat.repr v ++ " " else ""),
        (d.setBrightness v s).2)
    | none => ("", s)
  else if directive tok = 'G' then
    ("BRIGHT " ++ Nat.repr (d.getBrightness s).1.val ++ " ", (d.getBrightness s).2)
  else if directive tok = 'V' then ("AACMD version: 3.14.16 ", s)
  else if directive tok = 'O' then ("OPEN ", s)
  else if directive tok = 'C' then ("CLOSE ", s)
  else if directive tok = 'P' then ("PRODUCTID ", s)
  else if directive tok = 'F' then ("FIRMWARE ", s)
  else ("", s)

/-- The fragments of a token list, one per token and in token order, and the state of
the device after the last token. -/
def tableRun {σ : Type} (d : AlnitakEmu σ) : List String → σ → List String × σ
  | [], s => ([], s)
  | tok :: rest, s =>
    ((tableStep d tok s).1 :: (tableRun d rest (tableStep d tok s).2).1,
      (tableRun d rest (tableStep d tok s).2).2)

/-- Concatenation of a list of fragments, left to right. -/
def concat : List String → String
  | [] => ""
  | f :: fs => f ++ concat fs

/-- The answer of the device operation of an `L`, `D` or `B` token when the device is
in state `s`. -/
def reportsSuccess {σ : Type} (d : AlnitakEmu σ) (tok : String) (s : σ) : Bool :=
  if directive tok = 'L' then (d.setLightOn true s).1
  else if directive tok = 'D' then (d.setLightOn false s).1
  else
    match brightness tok with
    | some v => (d.setBrightness v s).1
    | none => false

/-! ## Sample devices -/

/-- A dimmer on which every operation succeeds; its state is the brightness. -/
def okDimmer : AlnitakEmu (Fin 256) :=
  { Connect := fun s => (true, s),
    setLightOn := fun _ s => (true, s),
    setBrightness := fun v _ => (true, Fin.ofNat v),
    getBrightness := fun s => (s, s) }

/-- A dimmer that connects and then reports failure for every `setLightOn` and
`setBrightness`; its brightness stays what it was. -/
def failingDimmer : AlnitakEmu (Fin 256) :=
  { Connect := fun s => (true, s),
    setLightOn := fun _ s => (false, s),
    setBrightness := fun _ s => (false, s),
    getBrightness := fun s => (s, s) }

/-- A dimmer that cannot be connected. -/
def deadDimmer : AlnitakEmu (Fin 256) :=
  { Connect := fun s => (false, s),
    setLightOn := fun _ s => (false, s),
    setBrightness := fun _ s => (false, s),
    getBrightness := fun s => (s, s) }

/-- The directives of the dispatch table. -/
def recognized : List Char :=
  ['L', 'B', 'D', 'V', 'O', 'C', 'P', 'F', 'G', 'S']

/-- The conversion `%u` reads the number `v` from the text `s`: the text is made of
white space `ws`, an optional sign, a non-empty run of decimal digits `ds` and a rest
that does not begin with a digit, and `v` is what the `unsigned int` holds once the
number with that sign and those digits has been stored. -/
def ReadsNumber (s : List Char) (v : Nat) : Prop :=
  ∃ ws sign ds rest : List Char,
    s = ws ++ (sign ++ (ds ++ rest)) ∧
    (∀ c ∈ ws, isspace c = true) ∧
    (sign = [] ∨ sign = ['+'] ∨ sign = ['-']) ∧
    ds ≠ [] ∧ (∀ c ∈ ds, isdigit c = true) ∧
    (∀ c, rest.head? = some c → isdigit c = false) ∧
    v = storedUnsigned (decide (sign = ['-'])) (digitsValue ds)

/-- A token is bad when its leading character, read case-insensitively, is not a
directive of the dispatch table (as for the empty token), or when it is a `B` token
with an invalid brightness argument: no number in `[1,255]` is read from the
characters after the leading letter. -/
def badToken (tok : String) : Prop :=
  directive tok ∉ recognized ∨
    (directive tok = 'B' ∧ ¬ ∃ v, ReadsNumber (tok.data.drop 1) v ∧ 1 ≤ v ∧ v ≤ 255)

/-! ## Relations between tokens, devices and runs -/

/-- The same letter in the other case: `a`..`z` become `A`..`Z` and `A`..`Z` become
`a`..`z`; a character that is not a letter is left as it is. -/
def otherCase (c : Char) : Char :=
  if 97 ≤ c.toNat ∧ c.toNat ≤ 122 then Char.ofNat (c.toNat - 32)
  else if 65 ≤ c.toNat ∧ c.toNat ≤ 90 then Char.ofNat (c.toNat + 32)
  else c

/-- A token with its leading letter replaced by the same letter in the other case. -/
def swapLeadingCase (tok : String) : String :=
  match tok.data with
  | [] => tok
  | c :: rest => String.mk (otherCase c :: rest)

/-- Two tokens are dispatched alike: they have the same directive and, when the
directive is `B`, the same characters after the leading one. -/
def sameDispatch (t u : String) : Prop :=
  directive t = directive u ∧ (directive t = 'B' → t.data.drop 1 = u.data.drop 1)

/-- Two devices answer alike from states related by `R`: from related states every
operation gives the same answer on both and leads to related states again. -/
structure AnswerAlike {σ τ : Type} (d : AlnitakEmu σ) (e : AlnitakEmu τ)
    (R : σ → τ → Prop) : Prop where
  connect : ∀ s t, R s t →
    (d.Connect s).1 = (e.Connect t).1 ∧ R (d.Connect s).2 (e.Connect t).2
  setLightOn : ∀ b s t, R s t →
    (d.setLightOn b s).1 = (e.setLightOn b t).1 ∧ R (d.setLightOn b s).2 (e.setLightOn b t).2
  setBrightness : ∀ v s t, R s t →
    (d.setBrightness v s).1 = (e.setBrightness v t).1 ∧
      R (d.setBrightness v s).2 (e.setBrightness v t).2
  getBrightness : ∀ s t, R s t →
    (d.getBrightness s).1 = (e.getBrightness t).1 ∧
      R (d.getBrightness s).2 (e.getBrightness t).2

/-- A dimmer on which every operation succeeds and that also counts the calls made on
it; its state is the brightness and the number of calls. -/
def countingDimmer : AlnitakEmu (Fin 256 × Nat) :=
  { Connect := fun s => (true, (s.1, s.2 + 1)),
    setLightOn := fun _ s => (true, (s.1, s.2 + 1)),
    setBrightness := fun v s => (true, (Fin.ofNat v, s.2 + 1)),
    getBrightness := fun s => (s.1, (s.1, s.2 + 1)) }

/-- The newline character. -/
def newline : Char := Char.ofNat 10

/-! ## The loop body against the dispatch table -/

theorem printf_d_small (v : Nat) (h : v ≤ 255) : printf_d v = Nat.repr v := by
  unfold printf_d UINT_RANGE
  have h1 : v % 2 ^ 32 = v := Nat.mod_eq_of_lt (by omega)
  rw [h1, if_pos (by omega)]

theorem brightness_some {tok : String} {v : Nat} (h : brightness tok = some v) :
    (sscanf_u (tok.data.drop 1) 0).1 = 1 ∧ (sscanf_u (tok.data.drop 1) 0).2 = v ∧
      1 ≤ v ∧ v ≤ 255 := by
  unfold brightness at h
  simp only [] at h
  split_ifs at h with hc
  simp only [Option.some.injEq] at h
  subst h
  exact ⟨hc.1, rfl, hc.2.1, hc.2.2⟩

theorem brightness_none {tok : String} (h : brightness tok = none) :
    (sscanf_u (tok.data.drop 1) 0).1 ≠ 1 ∨ (sscanf_u (tok.data.drop 1) 0).2 < 1 ∨
      (sscanf_u (tok.data.drop 1) 0).2 > 255 := by
  unfold brightness at h
  simp only [] at h
  split_ifs at h with hc
  by_contra hn
  apply hc
  refine ⟨?_, ?_, ?_⟩
  · by_contra h1
    exact hn (Or.inl h1)
  · omega
  · omega

theorem body_of_invalid {σ : Type} (d : AlnitakEmu σ) (tok : String) (p : Proc σ)
    (h : validToken tok = false) : body d tok p = Flow.usage p := by
  unfold validToken directive brightness plainDirectives at h
  unfold body
  split_ifs at h ⊢ <;> simp_all
  intro h1 h2
  exact h h1 (by omega)

theorem body_of_valid {σ : Type} (d : AlnitakEmu σ) (tok : String) (p : Proc σ)
    (h : validToken tok = true) :
    body d tok p = Flow.next
      { out := p.out ++ (tableStep d tok p.dimmer).1,
        delay := if directive tok = 'S' then 0 else p.delay,
        dimmer := (tableStep d tok p.dimmer).2,
        ops := p.ops ++ (tableOp tok).toList } := by
  unfold validToken at h
  by_cases hB : directive tok = 'B'
  · rw [if_pos hB] at h
    obtain ⟨v, hv⟩ := Option.isSome_iff_exists.mp h
    obtain ⟨h1, h2, h3, h4⟩ := brightness_some hv
    have hB2 : toupper (firstChar tok) = 'B' := hB
    have hm : v % 256 = v := Nat.mod_eq_of_lt (by omega)
    unfold body tableStep tableOp
    simp only [hB, hB2, hv, h1, h2, hm, printf_d_small v h4]
    cases hr : (d.setBrightness v p.dimmer).1 <;> simp [hr, hv] <;> omega
  · rw [if_neg hB] at h
    unfold plainDirectives at h
    have hd : directive tok = toupper (firstChar tok) := rfl
    unfold body tableStep tableOp
    simp only [← hd]
    simp only [decide_eq_true_eq, List.mem_cons, List.mem_singleton, List.not_mem_nil,
      or_false] at h
    have hG : printf_d (d.getBrightness p.dimmer).1.val
        = Nat.repr (d.getBrightness p.dimmer).1.val := printf_d_small _ (by omega)
    rcases h with h | h | h | h | h | h | h | h | h <;> simp [h, hG]
    · cases hr : (d.setLightOn true p.dimmer).1 <;> simp [hr]
    · cases hr : (d.setLightOn false p.dimmer).1 <;> simp [hr]

/-! ## The loop against the dispatch table -/

/-- The loop over a list of valid tokens runs to its end; its final state is given by
the dispatch table. -/
theorem loop_of_valid {σ : Type} (d : AlnitakEmu σ) (toks : List String) :
    ∀ p : Proc σ, (∀ t ∈ toks, validToken t = true) →
      loop d toks p = Flow.next
        { out := p.out ++ concat (tableRun d toks p.dimmer).1,
          delay := if toks.any (fun t => decide (directive t = 'S')) then 0 else p.delay,
          dimmer := (tableRun d toks p.dimmer).2,
          ops := p.ops ++ toks.filterMap tableOp } := by
  induction toks with
  | nil =>
    intro p _
    simp [loop, tableRun, concat]
  | cons t ts ih =>
    intro p hv
    have ht : validToken t = true := hv t (List.mem_cons_self _ _)
    have hts : ∀ u ∈ ts, validToken u = true := fun u hu => hv u (List.mem_cons_of_mem _ hu)
    rw [loop, body_of_valid d t p ht]
    simp only []
    rw [ih _ hts]
    simp only [tableRun, concat, String.append_assoc, List.any_cons, Bool.or_eq_true,
      decide_eq_true_eq]
    congr 1
    refine Proc.mk.injEq .. |>.mpr ⟨rfl, ?_, rfl, ?_⟩
    · by_cases hS : directive t = 'S' <;> simp [hS]
    · cases hop : tableOp t <;> simp [List.filterMap_cons, hop]

/-- The loop stops at the first invalid token, in the state reached after the tokens
before it. -/
theorem loop_of_invalid {σ : Type} (d : AlnitakEmu σ) (pre : List String) (bad : String)
    (post : List String) (p : Proc σ) (hpre : ∀ t ∈ pre, validToken t = true)
    (hbad : validToken bad = false) :
    loop d (pre ++ bad :: post) p = Flow.usage
      { out := p.out ++ concat (tableRun d pre p.dimmer).1,
        delay := if pre.any (fun t => decide (directive t = 'S')) then 0 else p.delay,
        dimmer := (tableRun d pre p.dimmer).2,
        ops := p.ops ++ pre.filterMap tableOp } := by
  induction pre generalizing p with
  | nil =>
    simp [loop, body_of_invalid d bad p hbad, tableRun, concat]
  | cons t ts ih =>
    have ht : validToken t = true := hpre t (List.mem_cons_self _ _)
    have hts : ∀ u ∈ ts, validToken u = true := fun u hu => hpre u (List.mem_cons_of_mem _ hu)
    rw [List.cons_append, loop, body_of_valid d t p ht]
    simp only []
    rw [ih _ hts]
    simp only [tableRun, concat, String.append_assoc, List.any_cons, Bool.or_eq_true,
      decide_eq_true_eq]
    congr 1
    refine Proc.mk.injEq .. |>.mpr ⟨rfl, ?_, rfl, ?_⟩
    · by_cases hS : directive t = 'S' <;> simp [hS]
    · cases hop : tableOp t <;> simp [List.filterMap_cons, hop]

/-! ## Whole runs -/

/-- A run with at least one token, a successful connect and only valid tokens. -/
theorem main_of_valid {σ : Type} (d : AlnitakEmu σ) (s0 : σ) (prog port : String)
    (toks : List String) (hne : toks ≠ []) (hconn : (d.Connect s0).1 = true)
    (hvalid : ∀ t ∈ toks, validToken t = true) :
    main d s0 (prog :: port :: toks) =
      { stdout := concat (tableRun d toks (d.Connect s0).2).1 ++ "\n",
        stderr := "",
        status := 0,
        slept := some (if toks.any (fun t => decide (directive t = 'S')) then 0 else 3000),
        ops := DevOp.connect :: toks.filterMap tableOp,
        dimmer := (tableRun d toks (d.Connect s0).2).2 } := by
  have hlen : ¬ (prog :: port :: toks).length < 3 := by
    cases toks with
    | nil => exact absurd rfl hne
    | cons t ts => simp
  unfold main
  rw [if_neg hlen]
  simp only [hconn, Bool.not_true, Bool.false_eq_true, if_false, List.drop_succ_cons,
    List.drop_zero]
  rw [loop_of_valid d toks _ hvalid]
  simp

/-- A run with a successful connect whose first invalid token is `bad`. -/
theorem main_of_invalid {σ : Type} (d : AlnitakEmu σ) (s0 : σ) (prog port : String)
    (pre : List String) (bad : String) (post : List String)
    (hconn : (d.Connect s0).1 = true) (hpre : ∀ t ∈ pre, validToken t = true)
    (hbad : validToken bad = false) :
    main d s0 (prog :: port :: (pre ++ bad :: post)) =
      { stdout := concat (tableRun d pre (d.Connect s0).2).1,
        stderr := usageText,
        status := 1,
        slept := none,
        ops := DevOp.connect :: pre.filterMap tableOp,
        dimmer := (tableRun d pre (d.Connect s0).2).2 } := by
  have hlen : ¬ (prog :: port :: (pre ++ bad :: post)).length < 3 := by
    simp only [List.length_cons, List.length_append]
    omega
  unfold main
  rw [if_neg hlen]
  simp only [hconn, Bool.not_true, Bool.false_eq_true, if_false, List.drop_succ_cons,
    List.drop_zero]
  rw [loop_of_invalid d pre bad post _ hpre hbad]
  simp

/-- A run with fewer than two arguments after the program name. -/
theorem main_of_short {σ : Type} (d : AlnitakEmu σ) (s0 : σ) (argv : List String)
    (h : argv.length < 3) :
    main d s0 argv =
      { stdout := "", stderr := usageText, status := 1, slept := none, ops := [],
        dimmer := s0 } := by
  unfold main
  rw [if_pos h]

/-- A run in which the device cannot be connected. -/
theorem main_of_connect_failure {σ : Type} (d : AlnitakEmu σ) (s0 : σ) (argv : List String)
    (h : 3 ≤ argv.length) (hconn : (d.Connect s0).1 = false) :
    main d s0 argv =
      { stdout := "", stderr := connectText, status := 1, slept := none,
        ops := [DevOp.connect], dimmer := (d.Connect s0).2 } := by
  unfold main
  rw [if_neg (by omega)]
  simp [hconn]

/-- A token list either holds only valid tokens or splits at its first invalid one. -/
theorem valid_or_first_invalid (toks : List String) :
    (∀ t ∈ toks, validToken t = true) ∨
      ∃ pre bad post, toks = pre ++ bad :: post ∧ (∀ t ∈ pre, validToken t = true) ∧
        validToken bad = false := by
  induction toks with
  | nil => exact Or.inl (fun t ht => absurd ht (List.not_mem_nil t))
  | cons t ts ih =>
    cases hv : validToken t with
    | false => exact Or.inr ⟨[], t, ts, rfl, fun u hu => absurd hu (List.not_mem_nil u), hv⟩
    | true =>
      rcases ih with hall | ⟨pre, bad, post, he, hp, hb⟩
      · left
        intro u hu
        rcases List.mem_cons.mp hu with rfl | hu
        · exact hv
        · exact hall u hu
      · right
        refine ⟨t :: pre, bad, post, by rw [he]; rfl, ?_, hb⟩
        intro u hu
        rcases List.mem_cons.mp hu with rfl | hu
        · exact hv
        · exact hp u hu

/-- The arguments of a run that reaches the connect: program name, port, tokens. -/
theorem argv_split (argv : List String) (h : 3 ≤ argv.length) :
    ∃ prog port toks, argv = prog :: port :: toks ∧ toks ≠ [] ∧ argv.drop 2 = toks := by
  match argv, h with
  | prog :: port :: t :: ts, _ => exact ⟨prog, port, t :: ts, rfl, by simp, rfl⟩

/-! ### Reading a run of digits -/

theorem isdigit_not_isspace {c : Char} (h : isdigit c = true) : isspace c = false := by
  unfold isdigit at h
  unfold isspace
  simp only [Bool.and_eq_true, decide_eq_true_eq] at h
  simp only [Bool.or_eq_false_iff, Bool.and_eq_false_iff, decide_eq_false_iff_not]
  omega

theorem isdigit_ne_sign {c : Char} (h : isdigit c = true) : c ≠ '-' ∧ c ≠ '+' := by
  unfold isdigit at h
  simp only [Bool.and_eq_true, decide_eq_true_eq] at h
  constructor
  · rintro rfl
    revert h
    decide
  · rintro rfl
    revert h
    decide

/-- The result of `%u` on an unsigned run of digits followed by something that does
not begin with a digit. -/
theorem sscanf_u_unsigned (ds rest : List Char) (val : Nat) (hne : ds ≠ [])
    (hdig : ∀ c ∈ ds, isdigit c = true)
    (hrest : ∀ c, rest.head? = some c → isdigit c = false) :
    sscanf_u (ds ++ rest) val = (1, storedUnsigned false (digitsValue ds)) := by
  match ds, hne with
  | c :: cs, _ =>
    have hc : isdigit c = true := hdig c (List.mem_cons_self _ _)
    have hsp : isspace c = false := isdigit_not_isspace hc
    have hsign := isdigit_ne_sign hc
    have hrest0 : List.takeWhile isdigit rest = [] := by
      cases rest with
      | nil => rfl
      | cons r rs => simp [List.takeWhile, hrest r rfl]
    have htake : List.takeWhile isdigit (c :: (cs ++ rest)) = c :: cs := by
      rw [← List.cons_append, List.takeWhile_append_of_pos hdig, hrest0, List.append_nil]
    have hdrop : List.dropWhile isspace (c :: (cs ++ rest)) = c :: (cs ++ rest) := by
      simp [List.dropWhile, hsp]
    unfold sscanf_u
    simp only [List.cons_append, hdrop, List.head?_cons, Option.some.injEq, hsign.1, hsign.2,
      or_self, if_false, decide_False, htake, List.isEmpty_cons, Bool.false_eq_true]

/-- The result of `%u` on a run of digits behind a sign. -/
theorem sscanf_u_signed (sg : Char) (ds rest : List Char) (val : Nat)
    (hsg : sg = '+' ∨ sg = '-') (hne : ds ≠ [])
    (hdig : ∀ c ∈ ds, isdigit c = true)
    (hrest : ∀ c, rest.head? = some c → isdigit c = false) :
    sscanf_u (sg :: (ds ++ rest)) val
      = (1, storedUnsigned (decide (sg = '-')) (digitsValue ds)) := by
  have hsp : isspace sg = false := by
    rcases hsg with rfl | rfl <;> decide
  have hrest0 : List.takeWhile isdigit rest = [] := by
    cases rest with
    | nil => rfl
    | cons r rs => simp [List.takeWhile, hrest r rfl]
  have htake : List.takeWhile isdigit (ds ++ rest) = ds := by
    rw [List.takeWhile_append_of_pos hdig, hrest0, List.append_nil]
  have hdrop : List.dropWhile isspace (sg :: (ds ++ rest)) = sg :: (ds ++ rest) := by
    simp [List.dropWhile, hsp]
  have hemp : ds.isEmpty = false := by
    cases ds with
    | nil => exact absurd rfl hne
    | cons c cs => rfl
  have hor : (sg = '-' ∨ sg = '+') := hsg.symm
  unfold sscanf_u
  simp only [hdrop, List.head?_cons, Option.some.injEq, hor, if_true, List.drop_succ_cons,
    List.drop_zero, htake, hemp, Bool.false_eq_true, if_false]

/-- Leading white space does not change what `%u` reads. -/
theorem sscanf_u_skip_space (ws s : List Char) (val : Nat)
    (hws : ∀ c ∈ ws, isspace c = true) : sscanf_u (ws ++ s) val = sscanf_u s val := by
  unfold sscanf_u
  simp only [List.dropWhile_append_of_pos hws]

theorem head_dropWhile_isdigit (l : List Char) :
    ∀ c, (l.dropWhile isdigit).head? = some c → isdigit c = false := by
  intro c hc
  have h := List.head?_dropWhile_not isdigit l
  rw [hc] at h
  exact h

/-- The conversion `%u` returns 1 and stores `v` exactly when the text is white space,
an optional sign and a non-empty run of digits that is not followed by a digit, and
`v` is the stored value of that number. -/
theorem sscanf_u_eq_one_iff (s : List Char) (val v : Nat) :
    sscanf_u s val = (1, v) ↔ ReadsNumber s v := by
  constructor
  · intro h
    have hsplit := List.takeWhile_append_dropWhile isspace s
    have hws : ∀ c ∈ s.takeWhile isspace, isspace c = true :=
      fun c hc => List.mem_takeWhile_imp hc
    unfold sscanf_u at h
    simp only [] at h
    cases hs1 : s.dropWhile isspace with
    | nil =>
      rw [hs1] at h
      simp at h
    | cons a t =>
      rw [hs1] at h hsplit
      by_cases hm : a = '-'
      · subst hm
        simp only [List.head?_cons, true_or, if_true, List.drop_succ_cons, List.drop_zero,
          decide_True] at h
        have hd := List.takeWhile_append_dropWhile isdigit t
        by_cases he : (t.takeWhile isdigit).isEmpty = true
        · simp [he] at h
        · simp only [he, Bool.false_eq_true, if_false, Prod.mk.injEq, true_and] at h
          refine ⟨_, ['-'], t.takeWhile isdigit, t.dropWhile isdigit, ?_, hws,
            Or.inr (Or.inr rfl), ?_, fun c hc => List.mem_takeWhile_imp hc,
            head_dropWhile_isdigit t, ?_⟩
          · rw [hd]
            exact hsplit.symm
          · intro hnil
            rw [hnil] at he
            exact he rfl
          · rw [← h]
            simp
      · by_cases hp : a = '+'
        · subst hp
          simp only [List.head?_cons, Option.some.injEq, or_true, if_true,
            List.drop_succ_cons, List.drop_zero] at h
          have hd := List.takeWhile_append_dropWhile isdigit t
          by_cases he : (t.takeWhile isdigit).isEmpty = true
          · simp [he] at h
          · simp only [he, Bool.false_eq_true, if_false, Prod.mk.injEq, true_and] at h
            refine ⟨_, ['+'], t.takeWhile isdigit, t.dropWhile isdigit, ?_, hws,
              Or.inr (Or.inl rfl), ?_, fun c hc => List.mem_takeWhile_imp hc,
              head_dropWhile_isdigit t, ?_⟩
            · rw [hd]
              exact hsplit.symm
            · intro hnil
              rw [hnil] at he
              exact he rfl
            · rw [← h]
              simp
        · simp only [List.head?_cons, Option.some.injEq, hm, hp, or_self, if_false,
            decide_False] at h
          have hd := List.takeWhile_append_dropWhile isdigit (a :: t)
          by_cases he : ((a :: t).takeWhile isdigit).isEmpty = true
          · simp [he] at h
          · simp only [he, Bool.false_eq_true, if_false, Prod.mk.injEq, true_and] at h
            refine ⟨_, [], (a :: t).takeWhile isdigit, (a :: t).dropWhile isdigit, ?_, hws,
              Or.inl rfl, ?_, fun c hc => List.mem_takeWhile_imp hc,
              head_dropWhile_isdigit (a :: t), ?_⟩
            · rw [List.nil_append, hd]
              exact hsplit.symm
            · intro hnil
              rw [hnil] at he
              exact he rfl
            · rw [← h]
              simp
  · rintro ⟨ws, sign, ds, rest, rfl, hws, hsign, hne, hdig, hrest, rfl⟩
    rw [sscanf_u_skip_space ws _ val hws]
    rcases hsign with rfl | rfl | rfl
    · rw [List.nil_append, sscanf_u_unsigned ds rest val hne hdig hrest]
      simp
    · rw [List.singleton_append, sscanf_u_signed '+' ds rest val (Or.inl rfl) hne hdig hrest]
      simp
    · rw [List.singleton_append, sscanf_u_signed '-' ds rest val (Or.inr rfl) hne hdig hrest]
      simp

/-- A `B` token has no brightness argument in `[1,255]` exactly when no number in
`[1,255]` is read from the characters after its leading letter. -/
theorem brightness_eq_none_iff (tok : String) :
    brightness tok = none ↔
      ¬ ∃ v, ReadsNumber (tok.data.drop 1) v ∧ 1 ≤ v ∧ v ≤ 255 := by
  unfold brightness
  simp only []
  constructor
  · intro h
    rintro ⟨v, hr, h1, h2⟩
    have hsc := (sscanf_u_eq_one_iff _ 0 v).mpr hr
    rw [hsc] at h
    simp [h1, h2] at h
  · intro h
    split_ifs with hc
    · exfalso
      apply h
      refine ⟨(sscanf_u (tok.data.drop 1) 0).2, ?_, hc.2.1, hc.2.2⟩
      apply (sscanf_u_eq_one_iff _ 0 _).mp
      exact Prod.ext hc.1 rfl
    · rfl

theorem storedUnsigned_small (n : Nat) (h : n ≤ 255) : storedUnsigned false n = n := by
  unfold storedUnsigned ACC_RANGE UINT_RANGE
  rw [if_neg (by omega)]
  simp only [Bool.false_eq_true, if_false]
  exact Nat.mod_eq_of_lt (by omega)

/-- On a non-empty run of digits `%u` reads the whole run. -/
theorem sscanf_u_digits (ds : List Char) (val : Nat) (hne : ds ≠ [])
    (hdig : ∀ c ∈ ds, isdigit c = true) :
    sscanf_u ds val = (1, storedUnsigned false (digitsValue ds)) := by
  have h := sscanf_u_unsigned ds [] val hne hdig (fun c hc => by simp at hc)
  rw [List.append_nil] at h
  exact h


/-- A token is invalid exactly when its directive is not recognized or it is a `B`
token without a brightness argument in `[1,255]`. -/
theorem validToken_eq_false_iff (tok : String) :
    validToken tok = false ↔
      (directive tok ∉ ['L', 'B', 'D', 'V', 'O', 'C', 'P', 'F', 'G', 'S'] ∨
        (directive tok = 'B' ∧ brightness tok = none)) := by
  unfold validToken plainDirectives
  by_cases hB : directive tok = 'B'
  · simp [hB]
  · simp [hB]

theorem concat_append (a b : List String) : concat (a ++ b) = concat a ++ concat b := by
  induction a with
  | nil => simp [concat]
  | cons f fs ih => simp [concat, ih, String.append_assoc]

theorem tableRun_append {σ : Type} (d : AlnitakEmu σ) (a b : List String) (s : σ) :
    tableRun d (a ++ b) s =
      ((tableRun d a s).1 ++ (tableRun d b (tableRun d a s).2).1,
        (tableRun d b (tableRun d a s).2).2) := by
  induction a generalizing s with
  | nil => simp [tableRun]
  | cons t ts ih => simp [tableRun, ih]

/-- The fragment of an `L`, `D` or `B` token is empty when its device operation reports
failure. -/
theorem tableStep_of_failure {σ : Type} (d : AlnitakEmu σ) (tok : String) (s : σ)
    (hldb : directive tok = 'L' ∨ directive tok = 'D' ∨ directive tok = 'B')
    (hfail : reportsSuccess d tok s = false) : (tableStep d tok s).1 = "" := by
  unfold reportsSuccess at hfail
  unfold tableStep
  rcases hldb with h | h | h
  · simp [h] at hfail ⊢
    simp [hfail]
  · simp [h] at hfail ⊢
    simp [hfail]
  · simp [h] at hfail ⊢
    cases hb : brightness tok with
    | none => simp
    | some v =>
      simp [hb] at hfail ⊢
      simp [hfail]

theorem badToken_iff (tok : String) : badToken tok ↔ validToken tok = false := by
  unfold badToken recognized
  rw [validToken_eq_false_iff, brightness_eq_none_iff]

theorem not_badToken_iff (tok : String) : ¬ badToken tok ↔ validToken tok = true := by
  rw [badToken_iff]
  simp

/-- The device calls of a run, for every invocation and every device. -/
theorem main_ops_eq {σ : Type} (d : AlnitakEmu σ) (s0 : σ) (argv : List String) :
    (main d s0 argv).ops =
      if argv.length < 3 then []
      else if (d.Connect s0).1 = false then [DevOp.connect]
      else DevOp.connect :: ((argv.drop 2).takeWhile validToken).filterMap tableOp := by
  by_cases hlen : argv.length < 3
  · rw [main_of_short d s0 argv hlen, if_pos hlen]
  · rw [if_neg hlen]
    cases hconn : (d.Connect s0).1 with
    | false =>
      rw [main_of_connect_failure d s0 argv (by omega) hconn]
      simp
    | true =>
      obtain ⟨prog, port, toks, rfl, hne, hdrop⟩ := argv_split argv (by omega)
      rw [hdrop]
      simp only [Bool.true_eq_false, if_false]
      rcases valid_or_first_invalid toks with hall | ⟨pre, bad, post, rfl, hpre, hbad⟩
      · rw [main_of_valid d s0 prog port toks hne hconn hall]
        have : toks.takeWhile validToken = toks := List.takeWhile_eq_self_iff.mpr hall
        rw [this]
      · rw [main_of_invalid d s0 prog port pre bad post hconn hpre hbad]
        have : (pre ++ bad :: post).takeWhile validToken = pre := by
          rw [List.takeWhile_append_of_pos hpre]
          simp [List.takeWhile, hbad]
        rw [this]

theorem tableOp_ne_connect (tok : String) : tableOp tok ≠ some DevOp.connect := by
  unfold tableOp
  split_ifs
  · simp
  · simp
  · cases brightness tok <;> simp
  · simp
  · simp

/-- The fragments of a token list with a `V` token contain the version text. -/
theorem concat_tableRun_has_version {σ : Type} (d : AlnitakEmu σ) (toks : List String) :
    ∀ s : σ, (∃ t ∈ toks, directive t = 'V') →
      ∃ a b : String, concat (tableRun d toks s).1 = a ++ "AACMD version: 3.14.16" ++ b := by
  induction toks with
  | nil =>
    rintro s ⟨t, ht, _⟩
    exact absurd ht (List.not_mem_nil t)
  | cons u us ih =>
    rintro s ⟨t, ht, hV⟩
    by_cases hu : directive u = 'V'
    · refine ⟨"", " " ++ concat (tableRun d us (tableStep d u s).2).1, ?_⟩
      have hstep : (tableStep d u s).1 = "AACMD version: 3.14.16" ++ " " := by
        unfold tableStep
        simp [hu]
      simp only [tableRun, concat, hstep, String.empty_append, String.append_assoc]
    · have htu : t ∈ us := by
        rcases List.mem_cons.mp ht with rfl | h
        · exact absurd hV hu
        · exact h
      obtain ⟨a, b, hab⟩ := ih (tableStep d u s).2 ⟨t, htu, hV⟩
      refine ⟨(tableStep d u s).1 ++ a, b, ?_⟩
      simp only [tableRun, concat, hab, String.append_assoc]

/-! ### Decimal digits of a number -/

theorem digitChar_isdigit (k : Nat) (h : k < 10) :
    isdigit (Nat.digitChar k) = true ∧ (Nat.digitChar k).toNat - 48 = k := by
  interval_cases k <;> exact ⟨by decide, by decide⟩

theorem digitsValue_append_singleton (l : List Char) (c : Char) :
    digitsValue (l ++ [c]) = 10 * digitsValue l + (c.toNat - 48) := by
  unfold digitsValue
  rw [List.foldl_append]
  rfl

/-- The digits that `Nat.toDigitsCore` puts in front of `ds` are decimal digits that
denote `n`. -/
theorem toDigitsCore_digits (fuel : Nat) :
    ∀ (n : Nat) (ds : List Char), n < fuel →
      ∃ l : List Char, Nat.toDigitsCore 10 fuel n ds = l ++ ds ∧ l ≠ [] ∧
        (∀ c ∈ l, isdigit c = true) ∧ digitsValue l = n := by
  induction fuel with
  | zero => intro n ds h; omega
  | succ fuel ih =>
    intro n ds h
    have hd := digitChar_isdigit (n % 10) (Nat.mod_lt _ (by omega))
    unfold Nat.toDigitsCore
    by_cases h0 : n / 10 = 0
    · simp only [h0, if_true]
      refine ⟨[Nat.digitChar (n % 10)], rfl, by simp, ?_, ?_⟩
      · intro c hc
        rw [List.mem_singleton] at hc
        rw [hc]
        exact hd.1
      · have := digitsValue_append_singleton [] (Nat.digitChar (n % 10))
        simp only [List.nil_append] at this
        rw [this, hd.2]
        have : digitsValue [] = 0 := rfl
        rw [this]
        omega
    · simp only [h0, if_false]
      obtain ⟨l, hl, _, hdig, hval⟩ := ih (n / 10) (Nat.digitChar (n % 10) :: ds) (by omega)
      refine ⟨l ++ [Nat.digitChar (n % 10)], ?_, by simp, ?_, ?_⟩
      · rw [hl]
        simp
      · intro c hc
        rcases List.mem_append.mp hc with hc | hc
        · exact hdig c hc
        · rw [List.mem_singleton] at hc
          rw [hc]
          exact hd.1
      · rw [digitsValue_append_singleton, hval, hd.2]
        omega

/-- The decimal rendering of a number is a non-empty run of digits that denotes it. -/
theorem repr_digits (n : Nat) :
    (Nat.repr n).data ≠ [] ∧ (∀ c ∈ (Nat.repr n).data, isdigit c = true) ∧
      digitsValue (Nat.repr n).data = n := by
  obtain ⟨l, hl, hne, hdig, hval⟩ := toDigitsCore_digits (n + 1) n [] (by omega)
  have : (Nat.repr n).data = l := by
    unfold Nat.repr Nat.toDigits
    rw [hl]
    simp [List.asString]
  rw [this]
  exact ⟨hne, hdig, hval⟩

theorem digitsValue_zeros (k : Nat) (l : List Char) :
    digitsValue (List.replicate k '0' ++ l) = digitsValue l := by
  induction k with
  | zero => simp
  | succ k ih =>
    unfold digitsValue at ih ⊢
    rw [List.replicate_succ, List.cons_append, List.foldl_cons]
    exact ih

/-- The `B` branch of the loop body for a token that `%u` reads as `v` in `[1,255]`. -/
theorem body_of_B {σ : Type} (d : AlnitakEmu σ) (tok : String) (p : Proc σ) (v : Nat)
    (hB : directive tok = 'B') (hsc : sscanf_u (tok.data.drop 1) 0 = (1, v))
    (hv : 1 ≤ v ∧ v ≤ 255) :
    body d tok p = Flow.next
      { out := if (d.setBrightness v p.dimmer).1
          then p.out ++ ("BRIGHT " ++ Nat.repr v ++ " ") else p.out,
        delay := p.delay,
        dimmer := (d.setBrightness v p.dimmer).2,
        ops := p.ops ++ [DevOp.setBrightness v] } := by
  have hcmd : toupper (firstChar tok) = 'B' := hB
  have hm : v % 256 = v := Nat.mod_eq_of_lt (by omega)
  have h0 : ¬ ((1 : Int) ≠ 1 ∨ v < 1 ∨ v > 255) := by omega
  unfold body
  simp only [hcmd, hsc, hm, printf_d_small _ hv.2]
  rw [if_neg (by decide : ¬ ('B' : Char) = 'L'), if_pos trivial, if_neg h0]

/-! ### Tokens that are dispatched alike -/

theorem toupper_otherCase (c : Char) : toupper (otherCase c) = toupper c := by
  have hc := Char.ofNat_toNat c
  obtain ⟨n, hn⟩ : ∃ n, c.toNat = n := ⟨_, rfl⟩
  by_cases h1 : 97 ≤ n ∧ n ≤ 122
  · rw [hn] at hc
    subst hc
    obtain ⟨h1a, h1b⟩ := h1
    interval_cases n <;> decide
  · by_cases h2 : 65 ≤ n ∧ n ≤ 90
    · rw [hn] at hc
      subst hc
      obtain ⟨h2a, h2b⟩ := h2
      interval_cases n <;> decide
    · unfold otherCase
      rw [hn, if_neg h1, if_neg h2]

theorem sameDispatch_swapLeadingCase (t : String) : sameDispatch t (swapLeadingCase t) := by
  unfold sameDispatch swapLeadingCase directive firstChar
  cases h : t.data with
  | nil => simp [h]
  | cons c rest => simp [toupper_otherCase]

theorem sameDispatch_refl (t : String) : sameDispatch t t :=
  ⟨rfl, fun _ => rfl⟩

/-- Tokens that are dispatched alike take the loop body to the same outcome. -/
theorem body_congr {σ : Type} (d : AlnitakEmu σ) (t u : String) (p : Proc σ)
    (h : sameDispatch t u) : body d t p = body d u p := by
  obtain ⟨h1, h2⟩ := h
  have ht : toupper (firstChar t) = directive t := rfl
  have hu : toupper (firstChar u) = directive u := rfl
  unfold body
  simp only [ht, hu, ← h1]
  by_cases hB : directive t = 'B'
  · rw [h2 hB]
  · simp only [hB, if_false]

theorem loop_congr {σ : Type} (d : AlnitakEmu σ) (ts us : List String)
    (h : List.Forall₂ sameDispatch ts us) : ∀ p : Proc σ, loop d ts p = loop d us p := by
  induction h with
  | nil => intro p; rfl
  | cons hd _ ih =>
    intro p
    rw [loop, loop, body_congr d _ _ p hd]
    cases body d _ p with
    | next q => exact ih q
    | usage q => rfl

theorem main_congr {σ : Type} (d : AlnitakEmu σ) (s0 : σ) (prog port prog2 port2 : String)
    (ts us : List String) (h : List.Forall₂ sameDispatch ts us) :
    main d s0 (prog :: port :: ts) = main d s0 (prog2 :: port2 :: us) := by
  have hlen : ts.length = us.length := h.length_eq
  unfold main
  simp only [List.length_cons, List.drop_succ_cons, List.drop_zero, hlen,
    loop_congr d ts us h]

/-! ### Newlines and spaces in the fragments -/

theorem repr_no_newline (n : Nat) : newline ∉ (Nat.repr n).data := by
  intro h
  have := (repr_digits n).2.1 newline h
  revert this
  decide

theorem bright_no_newline (n : Nat) :
    newline ∉ ("BRIGHT " ++ Nat.repr n ++ " ").data := by
  simp only [String.data_append, List.mem_append, not_or]
  exact ⟨⟨by decide, repr_no_newline n⟩, by decide⟩

/-- A property of every fragment the dispatch table can give holds of the fragment
of any token. -/
theorem tableStep_fragment_cases {σ : Type} (d : AlnitakEmu σ) (tok : String) (s : σ)
    (P : String → Prop) (hnone : P "") (hon : P "LIGHT ON ") (hoff : P "LIGHT OFF ")
    (hver : P "AACMD version: 3.14.16 ") (hopen : P "OPEN ") (hclose : P "CLOSE ")
    (hprod : P "PRODUCTID ") (hfirm : P "FIRMWARE ")
    (hbright : ∀ n : Nat, P ("BRIGHT " ++ Nat.repr n ++ " ")) :
    P (tableStep d tok s).1 := by
  unfold tableStep
  split_ifs
  · exact hon
  · exact hnone
  · exact hoff
  · exact hnone
  · cases brightness tok with
    | none => exact hnone
    | some v =>
      simp only []
      split_ifs
      · exact hbright v
      · exact hnone
  · exact hbright _
  · exact hver
  · exact hopen
  · exact hclose
  · exact hprod
  · exact hfirm
  · exact hnone

/-- No fragment of the dispatch table holds a newline. -/
theorem tableStep_no_newline {σ : Type} (d : AlnitakEmu σ) (tok : String) (s : σ) :
    newline ∉ (tableStep d tok s).1.data :=
  tableStep_fragment_cases d tok s (fun f => newline ∉ f.data) (by decide) (by decide)
    (by decide) (by decide) (by decide) (by decide) (by decide) (by decide)
    bright_no_newline

/-- Every fragment of the dispatch table is empty or ends with a space. -/
theorem tableStep_ends_with_space {σ : Type} (d : AlnitakEmu σ) (tok : String) (s : σ) :
    (tableStep d tok s).1 = "" ∨ ∃ g : String, (tableStep d tok s).1 = g ++ " " :=
  tableStep_fragment_cases d tok s (fun f => f = "" ∨ ∃ g : String, f = g ++ " ")
    (Or.inl rfl) (Or.inr ⟨"LIGHT ON", by decide⟩) (Or.inr ⟨"LIGHT OFF", by decide⟩)
    (Or.inr ⟨"AACMD version: 3.14.16", by decide⟩) (Or.inr ⟨"OPEN", by decide⟩)
    (Or.inr ⟨"CLOSE", by decide⟩) (Or.inr ⟨"PRODUCTID", by decide⟩)
    (Or.inr ⟨"FIRMWARE", by decide⟩) (fun n => Or.inr ⟨"BRIGHT " ++ Nat.repr n, rfl⟩)

theorem tableRun_fragments {σ : Type} (d : AlnitakEmu σ) (toks : List String) :
    ∀ (s : σ) (f : String), f ∈ (tableRun d toks s).1 →
      newline ∉ f.data ∧ (f = "" ∨ ∃ g : String, f = g ++ " ") := by
  induction toks with
  | nil =>
    intro s f hf
    exact absurd hf (List.not_mem_nil f)
  | cons t ts ih =>
    intro s f hf
    simp only [tableRun, List.mem_cons] at hf
    rcases hf with rfl | hf
    · exact ⟨tableStep_no_newline d t s, tableStep_ends_with_space d t s⟩
    · exact ih _ f hf

theorem concat_no_newline (fs : List String) (h : ∀ f ∈ fs, newline ∉ f.data) :
    newline ∉ (concat fs).data := by
  induction fs with
  | nil => decide
  | cons f fs ih =>
    simp only [concat, String.data_append, List.mem_append, not_or]
    exact ⟨h f (List.mem_cons_self _ _), ih (fun g hg => h g (List.mem_cons_of_mem _ hg))⟩

theorem concat_of_empty (fs : List String) (h : ∀ f ∈ fs, f = "") : concat fs = "" := by
  induction fs with
  | nil => rfl
  | cons f fs ih =>
    rw [concat, h f (List.mem_cons_self _ _), ih (fun g hg => h g (List.mem_cons_of_mem _ hg))]
    rfl

/-! ### Devices that answer alike -/

/-- From related device states the dispatch table gives the same fragment on two
devices that answer alike, and leads to related states. -/
theorem tableStep_alike {σ τ : Type} (d : AlnitakEmu σ) (e : AlnitakEmu τ)
    (R : σ → τ → Prop) (hde : AnswerAlike d e R) (tok : String) (s : σ) (t : τ)
    (hst : R s t) :
    (tableStep d tok s).1 = (tableStep e tok t).1 ∧
      R (tableStep d tok s).2 (tableStep e tok t).2 := by
  have hL := hde.setLightOn true s t hst
  have hD := hde.setLightOn false s t hst
  have hG := hde.getBrightness s t hst
  unfold tableStep
  by_cases h1 : directive tok = 'L'
  · simp only [h1, if_true, hL.1]
    exact ⟨trivial, hL.2⟩
  · simp only [h1, if_false]
    by_cases h2 : directive tok = 'D'
    · simp only [h2, if_true, hD.1]
      exact ⟨trivial, hD.2⟩
    · simp only [h2, if_false]
      by_cases h3 : directive tok = 'B'
      · simp only [h3, if_true]
        cases brightness tok with
        | none => exact ⟨rfl, hst⟩
        | some v =>
          have hB := hde.setBrightness v s t hst
          simp only [hB.1]
          exact ⟨trivial, hB.2⟩
      · simp only [h3, if_false]
        by_cases h4 : directive tok = 'G'
        · simp only [h4, if_true, hG.1]
          exact ⟨trivial, hG.2⟩
        · simp only [h4, if_false]
          split_ifs <;> exact ⟨rfl, hst⟩

theorem tableRun_alike {σ τ : Type} (d : AlnitakEmu σ) (e : AlnitakEmu τ)
    (R : σ → τ → Prop) (hde : AnswerAlike d e R) (toks : List String) :
    ∀ (s : σ) (t : τ), R s t →
      (tableRun d toks s).1 = (tableRun e toks t).1 ∧
        R (tableRun d toks s).2 (tableRun e toks t).2 := by
  induction toks with
  | nil =>
    intro s t hst
    exact ⟨rfl, hst⟩
  | cons u us ih =>
    intro s t hst
    have h1 := tableStep_alike d e R hde u s t hst
    have h2 := ih _ _ h1.2
    simp only [tableRun, h1.1, h2.1, true_and]
    exact h2.2

/-- Two runs with the same tokens on devices that answer alike leave the same
standard output, standard error, exit status, delay and device calls, and related
device states. -/
theorem main_alike {σ τ : Type} (d : AlnitakEmu σ) (e : AlnitakEmu τ) (R : σ → τ → Prop)
    (hde : AnswerAlike d e R) (s0 : σ) (t0 : τ) (h0 : R s0 t0)
    (prog port prog2 port2 : String) (toks : List String) :
    (main d s0 (prog :: port :: toks)).stdout = (main e t0 (prog2 :: port2 :: toks)).stdout ∧
      (main d s0 (prog :: port :: toks)).stderr
        = (main e t0 (prog2 :: port2 :: toks)).stderr ∧
      (main d s0 (prog :: port :: toks)).status
        = (main e t0 (prog2 :: port2 :: toks)).status ∧
      (main d s0 (prog :: port :: toks)).slept = (main e t0 (prog2 :: port2 :: toks)).slept ∧
      (main d s0 (prog :: port :: toks)).ops = (main e t0 (prog2 :: port2 :: toks)).ops ∧
      R (main d s0 (prog :: port :: toks)).dimmer
        (main e t0 (prog2 :: port2 :: toks)).dimmer := by
  have hc := hde.connect s0 t0 h0
  by_cases hne : toks = []
  · subst hne
    rw [main_of_short d s0 _ (by simp), main_of_short e t0 _ (by simp)]
    exact ⟨rfl, rfl, rfl, rfl, rfl, h0⟩
  · have hlen : ∀ a b : String, 3 ≤ (a :: b :: toks).length := by
      intro a b
      cases toks with
      | nil => exact absurd rfl hne
      | cons u us => simp
    cases hconn : (d.Connect s0).1 with
    | false =>
      have hconn2 : (e.Connect t0).1 = false := by rw [← hc.1, hconn]
      rw [main_of_connect_failure d s0 _ (hlen _ _) hconn,
        main_of_connect_failure e t0 _ (hlen _ _) hconn2]
      exact ⟨rfl, rfl, rfl, rfl, rfl, hc.2⟩
    | true =>
      have hconn2 : (e.Connect t0).1 = true := by rw [← hc.1, hconn]
      rcases valid_or_first_invalid toks with hall | ⟨pre, bad, post, rfl, hpre, hbad⟩
      · have hr := tableRun_alike d e R hde toks _ _ hc.2
        rw [main_of_valid d s0 prog port toks hne hconn hall,
          main_of_valid e t0 prog2 port2 toks hne hconn2 hall]
        exact ⟨by simp only [hr.1], rfl, rfl, rfl, rfl, hr.2⟩
      · have hr := tableRun_alike d e R hde pre _ _ hc.2
        rw [main_of_invalid d s0 prog port pre bad post hconn hpre hbad,
          main_of_invalid e t0 prog2 port2 pre bad post hconn2 hpre hbad]
        exact ⟨by simp only [hr.1], rfl, rfl, rfl, rfl, hr.2⟩

/-! ## The claims -/

set_option maxRecDepth 4000

/-- C1: when the invocation has a port and at least one token, the connect succeeds
and every token is valid, standard output is exactly the concatenation, in token
order, of the dispatch-table fragments of the tokens (the fragment of `L`, `D`, `B`
being empty when the device call fails) followed by one newline, and the exit status
is 0. -/
theorem c1_stdout_is_concatenation_of_fragments {σ : Type} (d : AlnitakEmu σ) (s0 : σ)
    (prog port : String) (toks : List String) (hne : toks ≠ [])
    (hconn : (d.Connect s0).1 = true) (hvalid : ∀ t ∈ toks, validToken t = true) :
    (main d s0 (prog :: port :: toks)).stdout
        = concat (tableRun d toks (d.Connect s0).2).1 ++ "\n" ∧
      (main d s0 (prog :: port :: toks)).status = 0 := by
  rw [main_of_valid d s0 prog port toks hne hconn hvalid]
  exact ⟨rfl, rfl⟩

/-- Witness of C1: on a dimmer whose operations succeed, `L B200 S` writes exactly
`LIGHT ON BRIGHT 200 ` and a newline, and `D S` writes `LIGHT OFF ` and a newline,
both with exit status 0 and no delay. -/
theorem c1_witness_light_on_bright_200 :
    ["L", "B200", "S"] ≠ [] ∧ (okDimmer.Connect 0).1 = true ∧
      (∀ t ∈ ["L", "B200", "S"], validToken t = true) ∧
      (main okDimmer 0 ["aacmd.exe", "6", "L", "B200", "S"]).stdout
        = "LIGHT ON BRIGHT 200 \n" ∧
      (main okDimmer 0 ["aacmd.exe", "6", "L", "B200", "S"]).status = 0 ∧
      (main okDimmer 0 ["aacmd.exe", "6", "L", "B200", "S"]).slept = some 0 ∧
      (main okDimmer 0 ["aacmd.exe", "6", "D", "S"]).stdout = "LIGHT OFF \n" ∧
      (main okDimmer 0 ["aacmd.exe", "6", "D", "S"]).status = 0 ∧
      (main okDimmer 0 ["aacmd.exe", "6", "D", "S"]).slept = some 0 := by
  have h := c1_stdout_is_concatenation_of_fragments okDimmer 0 "aacmd.exe" "6"
    ["L", "B200", "S"] (by decide) (by decide) (by decide)
  exact ⟨by decide, by decide, by decide, h.1.trans (by decide), h.2, by decide, by decide,
    by decide, by decide⟩

/-- C2: when the connect succeeds and every token is valid, whatever the device
answers, an `L`, `D` or `B` token whose device operation reports failure adds nothing
to standard output, the tokens after it are dispatched all the same (their fragments
are written and their device operations performed), and the exit status is 0. -/
theorem c2_failed_operation_contributes_nothing {σ : Type} (d : AlnitakEmu σ) (s0 : σ)
    (prog port : String) (pre : List String) (tok : String) (post : List String)
    (hconn : (d.Connect s0).1 = true)
    (hvalid : ∀ t ∈ pre ++ tok :: post, validToken t = true)
    (hldb : directive tok = 'L' ∨ directive tok = 'D' ∨ directive tok = 'B')
    (hfail : reportsSuccess d tok (tableRun d pre (d.Connect s0).2).2 = false) :
    (main d s0 (prog :: port :: (pre ++ tok :: post))).stdout
        = concat (tableRun d pre (d.Connect s0).2).1
          ++ concat (tableRun d post
              (tableStep d tok (tableRun d pre (d.Connect s0).2).2).2).1
          ++ "\n" ∧
      (main d s0 (prog :: port :: (pre ++ tok :: post))).status = 0 ∧
      (main d s0 (prog :: port :: (pre ++ tok :: post))).ops
        = DevOp.connect :: (pre.filterMap tableOp ++ (tableOp tok).toList
            ++ post.filterMap tableOp) := by
  have hne : pre ++ tok :: post ≠ [] := by simp
  rw [main_of_valid d s0 prog port _ hne hconn hvalid]
  refine ⟨?_, rfl, ?_⟩
  · simp only [tableRun_append, tableRun, concat_append, concat]
    rw [tableStep_of_failure d tok _ hldb hfail, String.empty_append]
  · cases hop : tableOp tok <;> simp [List.filterMap_append, List.filterMap_cons, hop]

/-- Witness of C2: on a dimmer that fails every light and brightness operation, the
tokens `L B200 V D` write only the version fragment and the exit status is 0. -/
theorem c2_witness_failing_dimmer :
    (failingDimmer.Connect 0).1 = true ∧
      (∀ t ∈ ["L"] ++ "B200" :: ["V", "D"], validToken t = true) ∧
      (directive "B200" = 'L' ∨ directive "B200" = 'D' ∨ directive "B200" = 'B') ∧
      reportsSuccess failingDimmer "B200"
        (tableRun failingDimmer ["L"] (failingDimmer.Connect 0).2).2 = false ∧
      (main failingDimmer 0 ["aacmd.exe", "6", "L", "B200", "V", "D"]).stdout
        = "AACMD version: 3.14.16 \n" ∧
      (main failingDimmer 0 ["aacmd.exe", "6", "L", "B200", "V", "D"]).status = 0 ∧
      (main failingDimmer 0 ["aacmd.exe", "6", "L", "B200", "V", "D"]).ops
        = [DevOp.connect, DevOp.setLightOn true, DevOp.setBrightness 200,
            DevOp.setLightOn false] := by
  have h := c2_failed_operation_contributes_nothing failingDimmer 0 "aacmd.exe" "6"
    ["L"] "B200" ["V", "D"] (by decide) (by decide) (by decide) (by decide)
  exact ⟨by decide, by decide, by decide, by decide, h.1.trans (by decide), h.2.1,
    h.2.2.trans (by decide)⟩

/-- C3 (as amended): a `B` token reached by the dispatch loop from whose suffix `%u`
reads no number in `[1,255]` (there is no decimal digit after optional white space and
one optional sign, or the number read is, as stored, outside `[1,255]`) ends the run
with the usage text and exit status 1: `setBrightness` is not called for it (the
device calls are those of the tokens before it), no fragment is written for it
(standard output is what the tokens before it wrote), and nothing after it is
executed. The value is rejected, not clamped. -/
theorem c3_bad_brightness_is_usage_error {σ : Type} (d : AlnitakEmu σ) (s0 : σ)
    (prog port : String) (pre : List String) (tok : String) (post : List String)
    (hconn : (d.Connect s0).1 = true) (hpre : ∀ t ∈ pre, ¬ badToken t)
    (hB : directive tok = 'B')
    (hbad : ¬ ∃ v, ReadsNumber (tok.data.drop 1) v ∧ 1 ≤ v ∧ v ≤ 255) :
    (main d s0 (prog :: port :: (pre ++ tok :: post))).stderr = usageText ∧
      (main d s0 (prog :: port :: (pre ++ tok :: post))).status = 1 ∧
      (main d s0 (prog :: port :: (pre ++ tok :: post))).ops
        = DevOp.connect :: pre.filterMap tableOp ∧
      (main d s0 (prog :: port :: (pre ++ tok :: post))).stdout
        = concat (tableRun d pre (d.Connect s0).2).1 ∧
      (main d s0 (prog :: port :: (pre ++ tok :: post))).dimmer
        = (tableRun d pre (d.Connect s0).2).2 ∧
      (main d s0 (prog :: port :: (pre ++ tok :: post))).slept = none := by
  have hpre2 : ∀ t ∈ pre, validToken t = true :=
    fun t ht => (not_badToken_iff t).mp (hpre t ht)
  have htok : validToken tok = false := (badToken_iff tok).mp (Or.inr ⟨hB, hbad⟩)
  rw [main_of_invalid d s0 prog port pre tok post hconn hpre2 htok]
  exact ⟨rfl, rfl, rfl, rfl, rfl, rfl⟩

/-- Witness of C3 (as amended): `L B256 V` on a dimmer whose operations succeed. The
tokens `B0`, `B`, `Bx` and `B18446744073709551617` (a number of more than 64 bits, stored
as 4294967295) are rejected in the same way. -/
theorem c3_witness_b256 :
    (okDimmer.Connect 0).1 = true ∧ (∀ t ∈ ["L"], ¬ badToken t) ∧
      directive "B256" = 'B' ∧
      (¬ ∃ v, ReadsNumber ("B256".data.drop 1) v ∧ 1 ≤ v ∧ v ≤ 255) ∧
      (main okDimmer 0 ["aacmd.exe", "6", "L", "B256", "V"]).stderr = usageText ∧
      (main okDimmer 0 ["aacmd.exe", "6", "L", "B256", "V"]).status = 1 ∧
      (main okDimmer 0 ["aacmd.exe", "6", "L", "B256", "V"]).ops
        = [DevOp.connect, DevOp.setLightOn true] ∧
      (main okDimmer 0 ["aacmd.exe", "6", "L", "B256", "V"]).stdout = "LIGHT ON " ∧
      (¬ ∃ v, ReadsNumber ("B0".data.drop 1) v ∧ 1 ≤ v ∧ v ≤ 255) ∧
      (¬ ∃ v, ReadsNumber ("B".data.drop 1) v ∧ 1 ≤ v ∧ v ≤ 255) ∧
      (¬ ∃ v, ReadsNumber ("Bx".data.drop 1) v ∧ 1 ≤ v ∧ v ≤ 255) ∧
      (¬ ∃ v, ReadsNumber ("B18446744073709551617".data.drop 1) v ∧ 1 ≤ v ∧ v ≤ 255) ∧
      sscanf_u ("B18446744073709551617".data.drop 1) 0 = (1, 4294967295) ∧
      (main okDimmer 0 ["aacmd.exe", "6", "B18446744073709551617"]).status = 1 ∧
      (main okDimmer 0 ["aacmd.exe", "6", "B18446744073709551617"]).ops = [DevOp.connect] := by
  have hpre : ∀ t ∈ ["L"], ¬ badToken t :=
    fun t ht => (not_badToken_iff t).mpr ((by decide : ∀ u ∈ ["L"], validToken u = true) t ht)
  have hbad : ¬ ∃ v, ReadsNumber ("B256".data.drop 1) v ∧ 1 ≤ v ∧ v ≤ 255 :=
    (brightness_eq_none_iff "B256").mp (by decide)
  have h := c3_bad_brightness_is_usage_error okDimmer 0 "aacmd.exe" "6" ["L"] "B256" ["V"]
    (by decide) hpre (by decide) hbad
  exact ⟨by decide, hpre, by decide, hbad, h.1, h.2.1, h.2.2.1.trans (by decide),
    h.2.2.2.1.trans (by decide),
    (brightness_eq_none_iff "B0").mp (by decide),
    (brightness_eq_none_iff "B").mp (by decide),
    (brightness_eq_none_iff "Bx").mp (by decide),
    (brightness_eq_none_iff "B18446744073709551617").mp (by decide),
    by decide, by decide, by decide⟩

/-- Counterexample to C3 as stated: the token `B12x`, whose suffix `12x` is not a
number, is not rejected. `%u` reads the leading `12` and leaves the `x` unread, so
the run calls `setBrightness(12)`, writes `BRIGHT 12 ` and ends with exit status 0
and nothing on standard error. -/
theorem c3_counterexample_b12x :
    directive "B12x" = 'B' ∧
      sscanf_u ("B12x".data.drop 1) 0 = (1, 12) ∧
      (main okDimmer 0 ["aacmd.exe", "6", "B12x"]).status = 0 ∧
      (main okDimmer 0 ["aacmd.exe", "6", "B12x"]).stderr = "" ∧
      (main okDimmer 0 ["aacmd.exe", "6", "B12x"]).ops
        = [DevOp.connect, DevOp.setBrightness 12] ∧
      (main okDimmer 0 ["aacmd.exe", "6", "B12x"]).stdout = "BRIGHT 12 \n" := by
  decide

/-- C4: a `B` token reached by the dispatch loop whose suffix is a run of decimal
digits (one to three, or more with leading zeros) with value `v` in `[1,255]` makes
exactly one device call, `setBrightness(v)`: the narrowing to `unsigned char` keeps
the value. When the call reports success the fragment written is `BRIGHT v ` with `v`
in decimal, otherwise nothing is written. Consequently every argument handed to
`setBrightness` in any run lies in `1..255`. -/
theorem c4_valid_brightness_is_passed_unchanged {σ : Type} (d : AlnitakEmu σ)
    (lead : Char) (ds : List Char) (p : Proc σ)
    (hlead : lead = 'B' ∨ lead = 'b') (hne : ds ≠ [])
    (hdig : ∀ c ∈ ds, isdigit c = true)
    (hv : 1 ≤ digitsValue ds ∧ digitsValue ds ≤ 255) :
    body d (String.mk (lead :: ds)) p = Flow.next
        { out := if (d.setBrightness (digitsValue ds) p.dimmer).1
            then p.out ++ ("BRIGHT " ++ Nat.repr (digitsValue ds) ++ " ") else p.out,
          delay := p.delay,
          dimmer := (d.setBrightness (digitsValue ds) p.dimmer).2,
          ops := p.ops ++ [DevOp.setBrightness (digitsValue ds)] } ∧
      (∀ (τ : Type) (e : AlnitakEmu τ) (t0 : τ) (argv : List String) (w : Nat),
        DevOp.setBrightness w ∈ (main e t0 argv).ops → 1 ≤ w ∧ w ≤ 255) := by
  constructor
  · have hcmd : toupper (firstChar (String.mk (lead :: ds))) = 'B' := by
      rcases hlead with rfl | rfl
      · exact (by decide : toupper 'B' = 'B')
      · exact (by decide : toupper 'b' = 'B')
    have hsc : sscanf_u ((String.mk (lead :: ds)).data.drop 1) 0
        = (1, digitsValue ds) := by
      have h := sscanf_u_digits ds 0 hne hdig
      rw [storedUnsigned_small _ hv.2] at h
      simpa using h
    have hm : digitsValue ds % 256 = digitsValue ds := Nat.mod_eq_of_lt (by omega)
    unfold body
    simp only [hcmd, hsc, hm, printf_d_small _ hv.2]
    have h0 : ¬ ((1 : Int) ≠ 1 ∨ digitsValue ds < 1 ∨ digitsValue ds > 255) := by
      omega
    rw [if_neg (by decide : ¬ ('B' : Char) = 'L'), if_pos trivial, if_neg h0]
  · intro τ e t0 argv w hw
    rw [main_ops_eq] at hw
    split_ifs at hw with h1 h2
    · exact absurd hw (List.not_mem_nil _)
    · simp at hw
    · simp only [List.mem_cons, List.mem_filterMap] at hw
      rcases hw with hw | ⟨t, _, ht⟩
      · exact absurd hw (by simp)
      · unfold tableOp at ht
        split_ifs at ht with a b c e
        · simp at ht
        · simp at ht
        · simp only [Option.map_eq_some'] at ht
          obtain ⟨v, hv1, hv2⟩ := ht
          simp only [DevOp.setBrightness.injEq] at hv2
          subst hv2
          exact (brightness_some hv1).2.2
        · simp at ht

/-- Witness of C4: the token `b200` in the initial state of the loop. -/
theorem c4_witness_b200 :
    ('b' = 'B' ∨ 'b' = 'b') ∧ ['2', '0', '0'] ≠ [] ∧
      (∀ c ∈ ['2', '0', '0'], isdigit c = true) ∧
      (1 ≤ digitsValue ['2', '0', '0'] ∧ digitsValue ['2', '0', '0'] ≤ 255) ∧
      digitsValue ['2', '0', '0'] = 200 ∧
      body okDimmer "b200" { out := "", delay := 3000, dimmer := 0, ops := [DevOp.connect] }
        = (Flow.next { out := "BRIGHT 200 ", delay := 3000, dimmer := 200,
                       ops := [DevOp.connect, DevOp.setBrightness 200] } : Flow (Fin 256)) := by
  have h := (c4_valid_brightness_is_passed_unchanged okDimmer 'b' ['2', '0', '0']
    { out := "", delay := 3000, dimmer := 0, ops := [DevOp.connect] }
    (by decide) (by decide) (by decide) (by decide)).1
  exact ⟨by decide, by decide, by decide, by decide, by decide, h.trans (by decide)⟩

/-- C6: in a run that completes normally (a token is present, the connect succeeds,
every token is valid) the delay slept before exit is 0 ms when some token is the `S`
directive, wherever it stands, and 3000 ms when none is. The `S` directive itself only
sets the delay: it makes no device call and writes nothing. -/
theorem c6_delay_is_zero_iff_silent {σ : Type} (d : AlnitakEmu σ) (s0 : σ)
    (prog port : String) (toks : List String) (hne : toks ≠ [])
    (hconn : (d.Connect s0).1 = true) (hvalid : ∀ t ∈ toks, validToken t = true) :
    ((∃ t ∈ toks, directive t = 'S') →
        (main d s0 (prog :: port :: toks)).slept = some 0) ∧
      ((∀ t ∈ toks, directive t ≠ 'S') →
        (main d s0 (prog :: port :: toks)).slept = some 3000) ∧
      (∀ (tok : String) (p : Proc σ), directive tok = 'S' →
        body d tok p = Flow.next { p with delay := 0 }) := by
  rw [main_of_valid d s0 prog port toks hne hconn hvalid]
  refine ⟨?_, ?_, ?_⟩
  · rintro ⟨t, ht, hS⟩
    have : toks.any (fun t => decide (directive t = 'S')) = true :=
      List.any_eq_true.mpr ⟨t, ht, by simp [hS]⟩
    simp [this]
  · intro h
    have : toks.any (fun t => decide (directive t = 'S')) = false := by
      rw [List.any_eq_false]
      intro t ht
      simp [h t ht]
    simp [this]
  · intro tok p hS
    have hS2 : toupper (firstChar tok) = 'S' := hS
    unfold body
    simp [hS2]

/-- Witness of C6: `S` first, in the middle or last gives no delay; without `S` the
delay is 3000 ms. -/
theorem c6_witness_silent_anywhere :
    ["L", "S", "V"] ≠ [] ∧ (okDimmer.Connect 0).1 = true ∧
      (∀ t ∈ ["L", "S", "V"], validToken t = true) ∧
      (main okDimmer 0 ["aacmd.exe", "6", "L", "S", "V"]).slept = some 0 ∧
      (main okDimmer 0 ["aacmd.exe", "6", "S", "L", "V"]).slept = some 0 ∧
      (main okDimmer 0 ["aacmd.exe", "6", "L", "V", "S"]).slept = some 0 ∧
      (main okDimmer 0 ["aacmd.exe", "6", "L", "V"]).slept = some 3000 := by
  have h := c6_delay_is_zero_iff_silent okDimmer 0 "aacmd.exe" "6" ["L", "S", "V"]
    (by decide) (by decide) (by decide)
  exact ⟨by decide, by decide, by decide, h.1 ⟨"S", by decide, by decide⟩, by decide,
    by decide, by decide⟩

/-- C7: with fewer than two arguments after the program name the process writes the
usage text to standard error and exits with status 1; the device is not touched (no
connect, no other device call) and nothing is written to standard output. -/
theorem c7_too_few_arguments {σ : Type} (d : AlnitakEmu σ) (s0 : σ) (argv : List String)
    (h : argv.length - 1 < 2) :
    main d s0 argv =
      { stdout := "", stderr := usageText, status := 1, slept := none, ops := [],
        dimmer := s0 } := by
  exact main_of_short d s0 argv (by omega)

/-- Witness of C7: a port and no command token. -/
theorem c7_witness_port_only :
    ["aacmd.exe", "6"].length - 1 < 2 ∧
      main okDimmer 0 ["aacmd.exe", "6"] =
        { stdout := "", stderr := usageText, status := 1, slept := none, ops := [],
          dimmer := 0 } :=
  ⟨by decide, c7_too_few_arguments okDimmer 0 ["aacmd.exe", "6"] (by decide)⟩

/-- C8: when at least one token is given and the connect reports failure, the process
writes the connection diagnostic to standard error and exits with status 1; the only
device call is the connect (no token is dispatched), nothing is written to standard
output, whatever the tokens are. -/
theorem c8_connect_failure {σ : Type} (d : AlnitakEmu σ) (s0 : σ) (prog port : String)
    (toks : List String) (hne : toks ≠ []) (hconn : (d.Connect s0).1 = false) :
    main d s0 (prog :: port :: toks) =
      { stdout := "", stderr := connectText, status := 1, slept := none,
        ops := [DevOp.connect], dimmer := (d.Connect s0).2 } := by
  apply main_of_connect_failure d s0 _ _ hconn
  cases toks with
  | nil => exact absurd rfl hne
  | cons t ts => simp

/-- Witness of C8: a dimmer that cannot be connected, with valid and invalid tokens. -/
theorem c8_witness_dead_dimmer :
    ["L", "x", "B0"] ≠ [] ∧ (deadDimmer.Connect 0).1 = false ∧
      main deadDimmer 0 ["aacmd.exe", "6", "L", "x", "B0"] =
        { stdout := "", stderr := "could not connect to usb dimmer!\n", status := 1,
          slept := none, ops := [DevOp.connect], dimmer := 0 } :=
  ⟨by decide, by decide,
    c8_connect_failure deadDimmer 0 "aacmd.exe" "6" ["L", "x", "B0"] (by decide) (by decide)⟩

/-- C9 (as amended): the device calls of a run, oldest first. With fewer than two
arguments there is none. Otherwise the connect is made exactly once and first; when it
fails it is the only call. When it succeeds it is followed, in token order, by the
calls of the tokens that come before the first invalid token (of all tokens when
every token is valid): one `setLightOn(true)` per `L`, one `setLightOn(false)` per
`D`, one `setBrightness(v)` per valid `B`, one `getBrightness` per `G`, none for `V`,
`O`, `C`, `P`, `F` and `S`. The list does not depend on the answers of the device:
nothing is retried, and the connect is never made again. A token is valid exactly when
it is not bad: its directive is in the dispatch table and, for `B`, a number in
`[1,255]` is read from its suffix. -/
theorem c9_device_calls_of_a_run {σ : Type} (d : AlnitakEmu σ) (s0 : σ)
    (argv : List String) :
    (main d s0 argv).ops =
        (if argv.length < 3 then []
         else if (d.Connect s0).1 = false then [DevOp.connect]
         else DevOp.connect :: ((argv.drop 2).takeWhile validToken).filterMap tableOp) ∧
      DevOp.connect ∉ (main d s0 argv).ops.tail ∧
      (∀ t : String, validToken t = true ↔ ¬ badToken t) := by
  have h := main_ops_eq d s0 argv
  refine ⟨h, ?_, fun t => (not_badToken_iff t).symm⟩
  rw [h]
  split_ifs
  · simp
  · simp
  · simp only [List.tail_cons, List.mem_filterMap, not_exists, not_and]
    intro t _
    exact tableOp_ne_connect t

/-- Counterexample to C9 as stated: it does not hold for every invocation. Without a
command token no connect is made at all; when the connect fails the `L` token gets no
`setLightOn`; and an `L` token after the invalid token `B0`, or after the invalid token
`B18446744073709551617`, gets none either. -/
theorem c9_counterexample_not_every_invocation :
    (main okDimmer 0 ["aacmd.exe", "6"]).ops = [] ∧
      (main deadDimmer 0 ["aacmd.exe", "6", "L"]).ops = [DevOp.connect] ∧
      (main okDimmer 0 ["aacmd.exe", "6", "B0", "L"]).ops = [DevOp.connect] ∧
      (main okDimmer 0 ["aacmd.exe", "6", "B0", "L"]).status = 1 ∧
      (main okDimmer 0 ["aacmd.exe", "6", "B18446744073709551617", "L"]).ops
        = [DevOp.connect] ∧
      (main okDimmer 0 ["aacmd.exe", "6", "B18446744073709551617", "L"]).status = 1 := by
  decide

/-- C10: in a valid invocation (the connect succeeds, every token is valid) with a `V`
directive among the tokens, standard output contains the literal text
`AACMD version: 3.14.16`, whatever the other tokens are and whatever the device
answers. -/
theorem c10_version_text_in_stdout {σ : Type} (d : AlnitakEmu σ) (s0 : σ)
    (prog port : String) (toks : List String)
    (hconn : (d.Connect s0).1 = true) (hvalid : ∀ t ∈ toks, validToken t = true)
    (hV : ∃ t ∈ toks, directive t = 'V') :
    ∃ a b : String,
      (main d s0 (prog :: port :: toks)).stdout = a ++ "AACMD version: 3.14.16" ++ b := by
  have hne : toks ≠ [] := by
    rintro rfl
    obtain ⟨t, ht, _⟩ := hV
    exact absurd ht (List.not_mem_nil t)
  rw [main_of_valid d s0 prog port toks hne hconn hvalid]
  obtain ⟨a, b, hab⟩ := concat_tableRun_has_version d toks (d.Connect s0).2 hV
  refine ⟨a, b ++ "\n", ?_⟩
  simp only [hab, String.append_assoc]

/-- Witness of C10: `L v S` on a dimmer whose light operations fail. -/
theorem c10_witness_version :
    (failingDimmer.Connect 0).1 = true ∧ (∀ t ∈ ["L", "v", "S"], validToken t = true) ∧
      (∃ t ∈ ["L", "v", "S"], directive t = 'V') ∧
      (∃ a b : String, (main failingDimmer 0 ["aacmd.exe", "6", "L", "v", "S"]).stdout
        = a ++ "AACMD version: 3.14.16" ++ b) ∧
      (main failingDimmer 0 ["aacmd.exe", "6", "L", "v", "S"]).stdout
        = "AACMD version: 3.14.16 \n" :=
  ⟨by decide, by decide, ⟨"v", by decide, by decide⟩,
    c10_version_text_in_stdout failingDimmer 0 "aacmd.exe" "6" ["L", "v", "S"] (by decide)
      (by decide) ⟨"v", by decide, by decide⟩,
    by decide⟩

/-- C11: a `G` token that is dispatched always writes the fragment `BRIGHT <value> `,
where `<value>` is the decimal rendering of the value the device returns for this
call of `getBrightness`, whichever value in `0..255` that is; no answer of the device
suppresses the fragment. -/
theorem c11_get_brightness_is_always_written {σ : Type} (d : AlnitakEmu σ) (tok : String)
    (p : Proc σ) (hG : directive tok = 'G') :
    body d tok p = Flow.next
      { out := p.out ++ ("BRIGHT " ++ Nat.repr (d.getBrightness p.dimmer).1.val ++ " "),
        delay := p.delay,
        dimmer := (d.getBrightness p.dimmer).2,
        ops := p.ops ++ [DevOp.getBrightness] } := by
  have hG2 : toupper (firstChar tok) = 'G' := hG
  have hp : printf_d (d.getBrightness p.dimmer).1.val
      = Nat.repr (d.getBrightness p.dimmer).1.val := printf_d_small _ (by omega)
  unfold body
  simp [hG2, hp]

/-- Witness of C11: the token `g` on a dimmer at brightness 37 whose light operations
fail, and whole runs at brightness 0 and 255. -/
theorem c11_witness_brightness_37 :
    directive "g" = 'G' ∧
      body failingDimmer "g" { out := "", delay := 3000, dimmer := 37, ops := [DevOp.connect] }
        = (Flow.next { out := "BRIGHT 37 ", delay := 3000, dimmer := 37,
                       ops := [DevOp.connect, DevOp.getBrightness] } : Flow (Fin 256)) ∧
      (main failingDimmer 0 ["aacmd.exe", "6", "G"]).stdout = "BRIGHT 0 \n" ∧
      (main failingDimmer 255 ["aacmd.exe", "6", "G"]).stdout = "BRIGHT 255 \n" := by
  have h := c11_get_brightness_is_always_written failingDimmer "g"
    { out := "", delay := 3000, dimmer := 37, ops := [DevOp.connect] } (by decide)
  exact ⟨by decide, h.trans (by decide), by decide, by decide⟩

/-- C12 (as amended): the port argument has to be present but is not read. `Connect`
is called without an argument, and two invocations that differ only in the port have
the same outcome: the same standard output and standard error, exit status, delay,
device calls and final device state. -/
theorem c12_port_is_not_read {σ : Type} (d : AlnitakEmu σ) (s0 : σ)
    (prog port port2 : String) (toks : List String) :
    main d s0 (prog :: port :: toks) = main d s0 (prog :: port2 :: toks) := by
  unfold main
  simp only [List.length_cons, List.drop_succ_cons, List.drop_zero]

/-- Counterexample to C12 as stated: the invocations `aacmd.exe 6 L B9` and
`aacmd.exe 7 L B9` differ only in the port, yet they make the same calls on the same
device, none of which carries the port, and leave it in the same state. -/
theorem c12_counterexample_ports_6_and_7 :
    main okDimmer 0 ["aacmd.exe", "6", "L", "B9"]
        = main okDimmer 0 ["aacmd.exe", "7", "L", "B9"] ∧
      (main okDimmer 0 ["aacmd.exe", "6", "L", "B9"]).ops
        = [DevOp.connect, DevOp.setLightOn true, DevOp.setBrightness 9] ∧
      (main okDimmer 0 ["aacmd.exe", "7", "L", "B9"]).ops
        = [DevOp.connect, DevOp.setLightOn true, DevOp.setBrightness 9] := by
  decide

/-- C13: directives are case-insensitive. Replacing the leading letter of any of the
tokens by the same letter in the other case changes nothing in the outcome of the
run, for every invocation and every device: standard output and standard error, exit
status, delay, device calls and final device state are the same. -/
theorem c13_directives_are_case_insensitive {σ : Type} (d : AlnitakEmu σ) (s0 : σ)
    (prog port : String) (ts us : List String)
    (h : List.Forall₂ (fun t u => u = t ∨ u = swapLeadingCase t) ts us) :
    main d s0 (prog :: port :: ts) = main d s0 (prog :: port :: us) := by
  apply main_congr
  refine List.Forall₂.imp ?_ h
  intro t u htu
  rcases htu with rfl | rfl
  · exact sameDispatch_refl _
  · exact sameDispatch_swapLeadingCase t

/-- Witness of C13: `l b200 s` against `L B200 S`, and `L b200 S` with one token
changed. -/
theorem c13_witness_lower_case :
    List.Forall₂ (fun t u => u = t ∨ u = swapLeadingCase t) ["L", "B200", "S"]
        ["l", "b200", "s"] ∧
      main okDimmer 0 ["aacmd.exe", "6", "L", "B200", "S"]
        = main okDimmer 0 ["aacmd.exe", "6", "l", "b200", "s"] ∧
      (main okDimmer 0 ["aacmd.exe", "6", "l", "b200", "s"]).stdout
        = "LIGHT ON BRIGHT 200 \n" ∧
      main okDimmer 0 ["aacmd.exe", "6", "L", "B200", "S"]
        = main okDimmer 0 ["aacmd.exe", "6", "L", "b200", "S"] := by
  have hrel : List.Forall₂ (fun t u => u = t ∨ u = swapLeadingCase t) ["L", "B200", "S"]
      ["l", "b200", "s"] :=
    List.Forall₂.cons (Or.inr (by decide))
      (List.Forall₂.cons (Or.inr (by decide))
        (List.Forall₂.cons (Or.inr (by decide)) List.Forall₂.nil))
  exact ⟨hrel, c13_directives_are_case_insensitive okDimmer 0 "aacmd.exe" "6" _ _ hrel,
    by decide, by decide⟩

/-- C14: in a run that completes normally (a token is present, the connect succeeds,
every token is valid) standard output is exactly one line: the fragments of the
tokens followed by one newline, which is the only newline and the last character.
Every fragment is empty or ends with a space, and when no directive produced output
standard output is just the newline. -/
theorem c14_stdout_is_one_line {σ : Type} (d : AlnitakEmu σ) (s0 : σ)
    (prog port : String) (toks : List String) (hne : toks ≠ [])
    (hconn : (d.Connect s0).1 = true) (hvalid : ∀ t ∈ toks, validToken t = true) :
    ∃ line : String,
      line = concat (tableRun d toks (d.Connect s0).2).1 ∧
      (main d s0 (prog :: port :: toks)).stdout = line ++ "\n" ∧
      (main d s0 (prog :: port :: toks)).stdout.data = line.data ++ [newline] ∧
      newline ∉ line.data ∧
      (∀ f ∈ (tableRun d toks (d.Connect s0).2).1, f = "" ∨ ∃ g : String, f = g ++ " ") ∧
      ((∀ f ∈ (tableRun d toks (d.Connect s0).2).1, f = "") →
        (main d s0 (prog :: port :: toks)).stdout = "\n") := by
  have hfr := tableRun_fragments d toks (d.Connect s0).2
  rw [main_of_valid d s0 prog port toks hne hconn hvalid]
  refine ⟨_, rfl, rfl, ?_, ?_, ?_, ?_⟩
  · rw [String.data_append]
    rfl
  · exact concat_no_newline _ (fun f hf => (hfr f hf).1)
  · exact fun f hf => (hfr f hf).2
  · intro hempty
    simp only [concat_of_empty _ hempty]
    rfl

/-- Witness of C14: `L V` writes one line; `S S`, and `L D B5` on a dimmer whose
operations all fail, write the empty line. -/
theorem c14_witness_one_line :
    ["L", "V"] ≠ [] ∧ (okDimmer.Connect 0).1 = true ∧
      (∀ t ∈ ["L", "V"], validToken t = true) ∧
      (∃ line : String,
        line = concat (tableRun okDimmer ["L", "V"] (okDimmer.Connect 0).2).1 ∧
        (main okDimmer 0 ["aacmd.exe", "6", "L", "V"]).stdout = line ++ "\n" ∧
        (main okDimmer 0 ["aacmd.exe", "6", "L", "V"]).stdout.data = line.data ++ [newline] ∧
        newline ∉ line.data ∧
        (∀ f ∈ (tableRun okDimmer ["L", "V"] (okDimmer.Connect 0).2).1,
          f = "" ∨ ∃ g : String, f = g ++ " ") ∧
        ((∀ f ∈ (tableRun okDimmer ["L", "V"] (okDimmer.Connect 0).2).1, f = "") →
          (main okDimmer 0 ["aacmd.exe", "6", "L", "V"]).stdout = "\n")) ∧
      (main okDimmer 0 ["aacmd.exe", "6", "L", "V"]).stdout
        = "LIGHT ON AACMD version: 3.14.16 \n" ∧
      (main okDimmer 0 ["aacmd.exe", "6", "S", "S"]).stdout = "\n" ∧
      (main failingDimmer 0 ["aacmd.exe", "6", "L", "D", "B5"]).stdout = "\n" :=
  ⟨by decide, by decide, by decide,
    c14_stdout_is_one_line okDimmer 0 "aacmd.exe" "6" ["L", "V"] (by decide) (by decide)
      (by decide),
    by decide, by decide, by decide⟩

/-- C15: the outcome of a run depends on nothing but the token list and the answers
of the device. Two runs with the same token list, on devices that start in related
states and answer alike from related states, leave the same standard output and
standard error, the same exit status, the same delay and the same device calls, and
related device states; the program name and the port play no part. -/
theorem c15_outcome_depends_on_tokens_and_answers {σ τ : Type} (d : AlnitakEmu σ)
    (e : AlnitakEmu τ) (R : σ → τ → Prop) (hde : AnswerAlike d e R) (s0 : σ) (t0 : τ)
    (h0 : R s0 t0) (prog port prog2 port2 : String) (toks : List String) :
    (main d s0 (prog :: port :: toks)).stdout = (main e t0 (prog2 :: port2 :: toks)).stdout ∧
      (main d s0 (prog :: port :: toks)).stderr
        = (main e t0 (prog2 :: port2 :: toks)).stderr ∧
      (main d s0 (prog :: port :: toks)).status
        = (main e t0 (prog2 :: port2 :: toks)).status ∧
      (main d s0 (prog :: port :: toks)).slept = (main e t0 (prog2 :: port2 :: toks)).slept ∧
      (main d s0 (prog :: port :: toks)).ops = (main e t0 (prog2 :: port2 :: toks)).ops ∧
      R (main d s0 (prog :: port :: toks)).dimmer
        (main e t0 (prog2 :: port2 :: toks)).dimmer :=
  main_alike d e R hde s0 t0 h0 prog port prog2 port2 toks

/-- Witness of C15: a dimmer whose state is its brightness and a dimmer that also
counts the calls made on it answer alike from states with the same brightness; the
tokens `L B200 G x D` give the same outcome on both. -/
theorem c15_witness_counting_dimmer :
    AnswerAlike okDimmer countingDimmer (fun s t => t.1 = s) ∧
      ((7 : Fin 256), (0 : Nat)).1 = 7 ∧
      (main okDimmer 7 ["aacmd.exe", "6", "L", "B200", "G", "x", "D"]).stdout
        = (main countingDimmer (7, 0) ["aacmd", "COM3", "L", "B200", "G", "x", "D"]).stdout ∧
      (main okDimmer 7 ["aacmd.exe", "6", "L", "B200", "G", "x", "D"]).stdout
        = "LIGHT ON BRIGHT 200 BRIGHT 200 " ∧
      (main okDimmer 7 ["aacmd.exe", "6", "L", "B200", "G", "x", "D"]).status
        = (main countingDimmer (7, 0) ["aacmd", "COM3", "L", "B200", "G", "x", "D"]).status := by
  have hde : AnswerAlike okDimmer countingDimmer (fun s t => t.1 = s) :=
    { connect := fun s t h => ⟨rfl, h⟩,
      setLightOn := fun _ s t h => ⟨rfl, h⟩,
      setBrightness := fun _ _ _ _ => ⟨rfl, rfl⟩,
      getBrightness := fun s t h => ⟨h.symm, h⟩ }
  have h := c15_outcome_depends_on_tokens_and_answers okDimmer countingDimmer
    (fun s t => t.1 = s) hde 7 (7, 0) rfl "aacmd.exe" "6" "aacmd" "COM3"
    ["L", "B200", "G", "x", "D"]
  exact ⟨hde, rfl, h.1, by decide, h.2.2.1⟩

/-- C16: of a token other than a `B` token only the leading character is examined.
Replacing any `L`, `D`, `V`, `O`, `C`, `P`, `F`, `G` or `S` token by any token with the
same leading character changes nothing in the outcome of the run (standard output and
standard error, exit status, delay, device calls, final device state), and such a
token is never rejected: the loop goes on after it. -/
theorem c16_only_leading_character_is_examined {σ : Type} (d : AlnitakEmu σ) (s0 : σ)
    (prog port : String) (ts us : List String)
    (h : List.Forall₂
      (fun t u => u = t ∨ (directive t ∈ plainDirectives ∧ u.data.head? = t.data.head?))
      ts us) :
    main d s0 (prog :: port :: ts) = main d s0 (prog :: port :: us) ∧
      (∀ u : String, directive u ∈ plainDirectives →
        ∀ p : Proc σ, ∃ q : Proc σ, body d u p = Flow.next q) := by
  have hdir : ∀ t u : String, u.data.head? = t.data.head? → directive u = directive t := by
    intro t u htu
    unfold directive firstChar
    cases ht : t.data with
    | nil =>
      cases hu : u.data with
      | nil => rfl
      | cons c cs => simp [ht, hu] at htu
    | cons b bs =>
      cases hu : u.data with
      | nil => simp [ht, hu] at htu
      | cons c cs =>
        simp only [ht, hu, List.head?_cons, Option.some.injEq] at htu
        simp [htu]
  have hplain : ∀ t : String, directive t ∈ plainDirectives → validToken t = true := by
    intro t ht
    have hB : directive t ≠ 'B' := by
      intro hB
      rw [hB] at ht
      revert ht
      decide
    unfold validToken
    rw [if_neg hB]
    exact decide_eq_true ht
  constructor
  · apply main_congr
    refine List.Forall₂.imp ?_ h
    intro t u htu
    rcases htu with rfl | ⟨hp, hhead⟩
    · exact sameDispatch_refl _
    · refine ⟨(hdir t u hhead).symm, ?_⟩
      intro hB
      rw [hB] at hp
      exact absurd hp (by decide)
  · intro u hp p
    exact ⟨_, body_of_valid d u p (hplain u hp)⟩

/-- Witness of C16: `Lxyz Open Silent` against `L O S`. -/
theorem c16_witness_trailing_characters :
    List.Forall₂
        (fun t u => u = t ∨ (directive t ∈ plainDirectives ∧ u.data.head? = t.data.head?))
        ["L", "O", "S"] ["Lxyz", "Open", "Silent"] ∧
      main okDimmer 0 ["aacmd.exe", "6", "L", "O", "S"]
        = main okDimmer 0 ["aacmd.exe", "6", "Lxyz", "Open", "Silent"] ∧
      (main okDimmer 0 ["aacmd.exe", "6", "Lxyz", "Open", "Silent"]).stdout
        = "LIGHT ON OPEN \n" ∧
      (main okDimmer 0 ["aacmd.exe", "6", "Lxyz", "Open", "Silent"]).slept = some 0 := by
  have hrel : List.Forall₂
      (fun t u => u = t ∨ (directive t ∈ plainDirectives ∧ u.data.head? = t.data.head?))
      ["L", "O", "S"] ["Lxyz", "Open", "Silent"] :=
    List.Forall₂.cons (Or.inr ⟨by decide, by decide⟩)
      (List.Forall₂.cons (Or.inr ⟨by decide, by decide⟩)
        (List.Forall₂.cons (Or.inr ⟨by decide, by decide⟩) List.Forall₂.nil))
  exact ⟨hrel,
    (c16_only_leading_character_is_examined okDimmer 0 "aacmd.exe" "6" _ _ hrel).1,
    by decide, by decide⟩

/-- C17: when, after a successful connect, the run ends in a usage error at the token
in position `k` (the first bad token, with the `k` tokens of `pre` before it), standard
output holds exactly the fragments of the tokens before position `k`, without any
newline, and no delay is slept, with or without an `S` token; the exit status is 1. -/
theorem c17_output_before_usage_error {σ : Type} (d : AlnitakEmu σ) (s0 : σ)
    (prog port : String) (pre : List String) (bad : String) (post : List String)
    (hconn : (d.Connect s0).1 = true) (hpre : ∀ t ∈ pre, ¬ badToken t)
    (hbad : badToken bad) :
    (main d s0 (prog :: port :: (pre ++ bad :: post))).stdout
        = concat (tableRun d pre (d.Connect s0).2).1 ∧
      newline ∉ (main d s0 (prog :: port :: (pre ++ bad :: post))).stdout.data ∧
      (main d s0 (prog :: port :: (pre ++ bad :: post))).slept = none ∧
      (main d s0 (prog :: port :: (pre ++ bad :: post))).status = 1 ∧
      (main d s0 (prog :: port :: (pre ++ bad :: post))).stderr = usageText := by
  have hpre2 : ∀ t ∈ pre, validToken t = true :=
    fun t ht => (not_badToken_iff t).mp (hpre t ht)
  have hfr := tableRun_fragments d pre (d.Connect s0).2
  rw [main_of_invalid d s0 prog port pre bad post hconn hpre2 ((badToken_iff bad).mp hbad)]
  exact ⟨rfl, concat_no_newline _ (fun f hf => (hfr f hf).1), rfl, rfl, rfl⟩

/-- Witness of C17: in `L B200 B0 V` the run ends at `B0` (position 2); the fragments of
`L` and `B200` are on standard output, without newline, and nothing is slept. A run
that ends at `B18446744073709551617` leaves the fragment of the `L` before it. -/
theorem c17_witness_partial_output :
    (okDimmer.Connect 0).1 = true ∧ (∀ t ∈ ["L", "B200"], ¬ badToken t) ∧ badToken "B0" ∧
      (main okDimmer 0 ["aacmd.exe", "6", "L", "B200", "B0", "V"]).stdout
        = "LIGHT ON BRIGHT 200 " ∧
      newline ∉ (main okDimmer 0 ["aacmd.exe", "6", "L", "B200", "B0", "V"]).stdout.data ∧
      (main okDimmer 0 ["aacmd.exe", "6", "L", "B200", "B0", "V"]).slept = none ∧
      (main okDimmer 0 ["aacmd.exe", "6", "L", "B200", "B0", "V"]).status = 1 ∧
      badToken "B18446744073709551617" ∧
      (main okDimmer 0 ["aacmd.exe", "6", "L", "B18446744073709551617", "V"]).stdout
        = "LIGHT ON " ∧
      (main okDimmer 0 ["aacmd.exe", "6", "L", "B18446744073709551617", "V"]).status = 1 := by
  have hpre : ∀ t ∈ ["L", "B200"], ¬ badToken t :=
    fun t ht =>
      (not_badToken_iff t).mpr ((by decide : ∀ u ∈ ["L", "B200"], validToken u = true) t ht)
  have hbad : badToken "B0" := (badToken_iff "B0").mpr (by decide)
  have h := c17_output_before_usage_error okDimmer 0 "aacmd.exe" "6" ["L", "B200"] "B0" ["V"]
    (by decide) hpre hbad
  exact ⟨by decide, hpre, hbad, h.1.trans (by decide), h.2.1, h.2.2.1, h.2.2.2.1,
    (badToken_iff "B18446744073709551617").mpr (by decide), by decide, by decide⟩

/-- C18: the brightness argument of a `B` token is the leading decimal number of the
suffix as `%u` reads it. For every `v` in `[1,255]`, a suffix made of the decimal digits
of `v`, with any number of zeros in front and any non-digit characters behind, is
accepted and behaves exactly like `Bv`: `setBrightness(v)` is called once and
`BRIGHT v ` is written when it reports success. -/
theorem c18_leading_number_is_the_brightness {σ : Type} (d : AlnitakEmu σ)
    (lead : Char) (v k : Nat) (rest : List Char) (p : Proc σ)
    (hlead : lead = 'B' ∨ lead = 'b') (hv : 1 ≤ v ∧ v ≤ 255)
    (hrest : ∀ c ∈ rest, isdigit c = false) :
    body d (String.mk (lead :: (List.replicate k '0' ++ (Nat.repr v).data ++ rest))) p
        = Flow.next
          { out := if (d.setBrightness v p.dimmer).1
              then p.out ++ ("BRIGHT " ++ Nat.repr v ++ " ") else p.out,
            delay := p.delay,
            dimmer := (d.setBrightness v p.dimmer).2,
            ops := p.ops ++ [DevOp.setBrightness v] } ∧
      body d (String.mk (lead :: (List.replicate k '0' ++ (Nat.repr v).data ++ rest))) p
        = body d (String.mk ('B' :: (Nat.repr v).data)) p := by
  obtain ⟨hne, hdig, hval⟩ := repr_digits v
  have hzero : ∀ c ∈ List.replicate k '0', isdigit c = true := by
    intro c hc
    rw [(List.mem_replicate.mp hc).2]
    decide
  have hdig2 : ∀ c ∈ List.replicate k '0' ++ (Nat.repr v).data, isdigit c = true := by
    intro c hc
    rcases List.mem_append.mp hc with hc | hc
    · exact hzero c hc
    · exact hdig c hc
  have hne2 : List.replicate k '0' ++ (Nat.repr v).data ≠ [] := by
    simp [hne]
  have hmod : storedUnsigned false v = v := storedUnsigned_small v hv.2
  have hrest2 : ∀ c, rest.head? = some c → isdigit c = false :=
    fun c hc => hrest c (List.mem_of_mem_head? hc)
  have hsc1 : sscanf_u ((String.mk (lead :: (List.replicate k '0' ++ (Nat.repr v).data
      ++ rest))).data.drop 1) 0 = (1, v) := by
    have h := sscanf_u_unsigned _ rest 0 hne2 hdig2 hrest2
    rw [digitsValue_zeros, hval, hmod] at h
    simpa using h
  have hsc2 : sscanf_u ((String.mk ('B' :: (Nat.repr v).data)).data.drop 1) 0 = (1, v) := by
    have h := sscanf_u_digits (Nat.repr v).data 0 hne hdig
    rw [hval, hmod] at h
    simpa using h
  have hdir1 : directive (String.mk (lead :: (List.replicate k '0' ++ (Nat.repr v).data
      ++ rest))) = 'B' := by
    rcases hlead with rfl | rfl
    · exact (by decide : toupper 'B' = 'B')
    · exact (by decide : toupper 'b' = 'B')
  have hdir2 : directive (String.mk ('B' :: (Nat.repr v).data)) = 'B' :=
    (by decide : toupper 'B' = 'B')
  rw [body_of_B d _ p v hdir1 hsc1 hv, body_of_B d _ p v hdir2 hsc2 hv]
  exact ⟨rfl, rfl⟩

/-- Witness of C18: `B0200x` and `b200x` behave like `B200`. -/
theorem c18_witness_b0200x :
    ('B' = 'B' ∨ 'B' = 'b') ∧ (1 ≤ 200 ∧ 200 ≤ 255) ∧ (∀ c ∈ ['x'], isdigit c = false) ∧
      String.mk ('B' :: (List.replicate 1 '0' ++ (Nat.repr 200).data ++ ['x'])) = "B0200x" ∧
      body okDimmer "B0200x" { out := "", delay := 3000, dimmer := 0, ops := [DevOp.connect] }
        = (Flow.next { out := "BRIGHT 200 ", delay := 3000, dimmer := 200,
                       ops := [DevOp.connect, DevOp.setBrightness 200] } : Flow (Fin 256)) ∧
      main okDimmer 0 ["aacmd.exe", "6", "b200x"] = main okDimmer 0 ["aacmd.exe", "6", "B200"] := by
  have h := (c18_leading_number_is_the_brightness okDimmer 'B' 200 1 ['x']
    { out := "", delay := 3000, dimmer := 0, ops := [DevOp.connect] }
    (by decide) (by decide) (by decide)).1
  exact ⟨by decide, by decide, by decide, by decide, h.trans (by decide), by decide⟩

end Aacmd
